import Mathlib

/-! Row-click delegation (`make_table_rows_clickable.js`).

A shallow embedding of `sasp/static/js/scripts/make_table_rows_clickable.js`
and the properties of its contract.

The rendered document is a list of elements in document order, each with its
nesting depth (the pre-order listing of the element tree).  An element is
named by its position in that list.  The script talks to the document through
jQuery; the jQuery calls it uses are modelled by their documented behaviour on
this document model.  Everything the script does to the page (console lines,
handler registrations, style changes) is both applied to the page and recorded,
in order, in a trace.
-/

namespace SASP

/-! ## The document -/

/-- A click handler registered by `row.click(function() { window.location = href; })`:
the closure keeps the string `href` it captured when it was created. -/
structure Handler where
  href : String
deriving DecidableEq, Repr

/-- The part of `window` the handlers write to. -/
structure Window where
  location : String
deriving DecidableEq, Repr

/-- Running a handler: the body `window.location = href;`. -/
def Handler.activate (h : Handler) (_w : Window) : Window :=
  { location := h.href }

/-- One element of the rendered document: nesting depth, lower-case tag name,
attributes as written in the markup, inline style properties and the click
handlers registered on it, oldest first. -/
structure Element where
  depth : Nat
  tag : String
  attrs : List (String × String)
  style : List (String × String)
  clicks : List Handler
deriving DecidableEq, Repr

/-- A document: its elements in document order. -/
abbrev Doc := List Element

/-- Element `j` lies strictly inside element `i`: it comes after `i` and every
element from `i + 1` up to `j` is nested deeper than `i`. -/
def isDescendant (doc : Doc) (i j : Nat) : Bool :=
  match doc[i]? with
  | none => false
  | some e =>
    decide (i < j) && decide (j < doc.length) &&
      ((doc.drop (i + 1)).take (j - i)).all (fun x => decide (e.depth < x.depth))

/-- The tag name of element `j`, when there is such an element. -/
def tagOf (doc : Doc) (j : Nat) : Option String :=
  (doc[j]?).map (fun e => e.tag)

/-- The DOM call `document.getElementById(id)`: the first element in document
order whose `id` attribute is `id`. -/
def getElementById (doc : Doc) (id : String) : Option Nat :=
  (List.range doc.length).find? (fun j => (doc[j]?).bind (fun e => e.attrs.lookup "id") == some id)

/-! ## jQuery -/

/-- Errors a script can raise. -/
inductive JsError
  | typeError (msg : String)
  | syntaxError (msg : String)
  | referenceError (msg : String)
  | selectorError (msg : String)
deriving DecidableEq, Repr

/-- The selector engine behind `$(selector)` for selectors that are not a bare
`#id`: it yields the matched elements or raises.  It is a component of the
jQuery library, taken as given. -/
abbrev Engine := String → Doc → Except JsError (List Nat)

/-- A character of the class `[\w-]` of jQuery's quick pattern for id selectors. -/
def isIdChar (c : Char) : Bool :=
  c.isAlphanum || c == '_' || c == '-'

/-- An identifier that jQuery looks up by id: one or more characters of `[\w-]`. -/
def isIdToken (s : String) : Bool :=
  !s.data.isEmpty && s.data.all isIdChar

/-- The identifier of a bare id selector `#id` (jQuery's quick pattern `#([\w-]+)`). -/
def quickId (selector : String) : Option String :=
  match selector.data with
  | '#' :: cs => if isIdToken (String.mk cs) then some (String.mk cs) else none
  | _ => none

/-- The call `$(selector)`: a bare id selector is resolved with `getElementById`
and gives a collection of zero or one element; every other selector goes to
the selector engine. -/
def jQuery (engine : Engine) (doc : Doc) (selector : String) : Except JsError (List Nat) :=
  match quickId selector with
  | some id => .ok (getElementById doc id).toList
  | none => engine selector doc

/-- The call `collection.find(tag)`: the elements with that tag name lying inside
some element of the collection, each once, in document order. -/
def find (doc : Doc) (collection : List Nat) (tag : String) : List Nat :=
  (List.range doc.length).filter
    (fun j => collection.any (fun i => isDescendant doc i j) && tagOf doc j == some tag)

/-- The call `collection.attr(name)`: the attribute of the first element of the
collection; `none` stands for `undefined` (empty collection or attribute not set). -/
def attr (doc : Doc) (collection : List Nat) (name : String) : Option String :=
  match collection with
  | [] => none
  | i :: _ => (doc[i]?).bind (fun e => e.attrs.lookup name)

/-- Setting one inline style property. -/
def setStyle (style : List (String × String)) (name value : String) : List (String × String) :=
  (name, value) :: style.filter (fun kv => kv.1 != name)

/-- Reading one inline style property. -/
def getStyle (style : List (String × String)) (name : String) : Option String :=
  style.lookup name

/-! ## The page and what the script does to it -/

/-- What the script does, in the order it does it. -/
inductive Event
  | call (table_id : String)
  | log (line : String)
  | click (row : Nat) (href : String)
  | css (row : Nat) (name value : String)
deriving DecidableEq, Repr

/-- A document mutation, as opposed to a console line or a call. -/
def Event.isMutation : Event → Bool
  | .click _ _ => true
  | .css _ _ _ => true
  | _ => false

/-- A console line. -/
def Event.isLog : Event → Bool
  | .log _ => true
  | _ => false

/-- The identifier of a call of `make_table_rows_clickable`. -/
def Event.callee : Event → Option String
  | .call table_id => some table_id
  | _ => none

/-- The page while the script runs: the document and the record of events. -/
structure Page where
  doc : Doc
  trace : List Event
deriving DecidableEq, Repr

/-- The statement `console.log(line)`. -/
def Page.log (p : Page) (line : String) : Page :=
  { p with trace := p.trace ++ [Event.log line] }

/-- Entering `make_table_rows_clickable(table_id)`. -/
def Page.enter (p : Page) (table_id : String) : Page :=
  { p with trace := p.trace ++ [Event.call table_id] }

/-- The call `row.click(function() { window.location = href; })`: one more
handler on the row. -/
def Page.click (p : Page) (row : Nat) (href : String) : Page :=
  { doc := p.doc.modify (fun e => { e with clicks := e.clicks ++ [Handler.mk href] }) row,
    trace := p.trace ++ [Event.click row href] }

/-- The call `row.css(name, value)`. -/
def Page.css (p : Page) (row : Nat) (name value : String) : Page :=
  { doc := p.doc.modify (fun e => { e with style := setStyle e.style name value }) row,
    trace := p.trace ++ [Event.css row name value] }

/-- How a run ended: the page it left, and the error it raised if it raised one. -/
structure Outcome where
  page : Page
  thrown : Option JsError
deriving DecidableEq, Repr

/-! ## `make_table_rows_clickable` -/

/-- The value `row.find('a').attr('href')` of lines 29-30. -/
def rowHref (doc : Doc) (row : Nat) : Option String :=
  let a_tag := find doc [row] "a"
  attr doc a_tag "href"

/-- The body of the `each` callback (lines 28-42) for one row. -/
def each_row (p : Page) (row : Nat) : Page :=
  let href := rowHref p.doc row
  match href with
  | some h => (p.click row h).css row "cursor" "pointer"
  | none => p

/-- The function `make_table_rows_clickable(table_id)` (lines 18-44). -/
def make_table_rows_clickable (engine : Engine) (p : Page) (table_id : String) : Outcome :=
  let p := p.enter table_id
  match jQuery engine p.doc ("#" ++ table_id) with
  | .error e => { page := p, thrown := some e }
  | .ok table =>
    if table.length == 0 then
      { page := p.log ("make_table_rows_clickable: Could not find table: " ++ table_id),
        thrown := none }
    else
      { page := (find p.doc table "tr").foldl each_row p, thrown := none }

/-! ## The top-level statements -/

/-- The value of `CONTEXT.target_tables`: `null` or missing, an array (each entry
by the string that concatenating it yields, which is all the script does with
it), a string, or a value that cannot be iterated (number, boolean, object). -/
inductive TargetTables
  | nullish
  | array (ids : List String)
  | string (s : String)
  | notIterable
deriving DecidableEq, Repr

/-- The value `JSON.parse` returned: `null`, or a value with whatever its
`target_tables` property is. -/
inductive Context
  | null
  | value (target_tables : TargetTables)
deriving DecidableEq, Repr

/-- What line 1 finds: no element `js-context`, text that is not JSON, or a
parsed value. -/
inductive Payload
  | absent
  | malformed
  | parsed (CONTEXT : Context)
deriving DecidableEq, Repr

/-- The global `$`: not declared at all, declared with a null value, or jQuery. -/
inductive Dollar
  | undeclared
  | null
  | loaded (engine : Engine)

/-- The test `CONTEXT == null || CONTEXT.target_tables == null` of line 46. -/
def noContext : Context → Bool
  | .null => true
  | .value .nullish => true
  | .value _ => false

/-- The values `for (let id of CONTEXT.target_tables)` runs through; `none` when
the value is not iterable. -/
def iterate : Context → Option (List String)
  | .value (.array ids) => some ids
  | .value (.string s) => some (s.data.map (fun c => String.mk [c]))
  | _ => none

/-- The loop of lines 54-57 over the identifiers still to come. -/
def for_of (engine : Engine) : Page → List String → Outcome
  | p, [] => { page := p, thrown := none }
  | p, id :: rest =>
    let p1 := p.log ("Searching for table: " ++ id)
    let r := make_table_rows_clickable engine p1 id
    match r.thrown with
    | some e => { page := r.page, thrown := some e }
    | none => for_of engine r.page rest

/-- The whole script, lines 1 and 46-58, on a freshly rendered document. -/
def script (payload : Payload) (dollar : Dollar) (doc : Doc) : Outcome :=
  let p : Page := { doc := doc, trace := [] }
  match payload with
  | .absent =>
    { page := p, thrown := some (.typeError "document.getElementById(...) is null") }
  | .malformed =>
    { page := p, thrown := some (.syntaxError "JSON.parse") }
  | .parsed CONTEXT =>
    if noContext CONTEXT then
      { page := p.log "make_table_rows_clickable: No context found.", thrown := none }
    else
      match dollar with
      | .undeclared => { page := p, thrown := some (.referenceError "$ is not defined") }
      | .null =>
        { page := p.log "make_table_rows_clickable: jQuery not found.", thrown := none }
      | .loaded engine =>
        match iterate CONTEXT with
        | none =>
          { page := p, thrown := some (.typeError "CONTEXT.target_tables is not iterable") }
        | some ids => for_of engine p ids

/-! ## Example documents -/

/-- An engine that rejects every selector it is given, the way jQuery rejects the
selector `#` (`Syntax error, unrecognized expression: #`). -/
def noEngine : Engine := fun selector _ => .error (.selectorError selector)

/-- A plain element without style or handlers. -/
def el (depth : Nat) (tag : String) (attrs : List (String × String)) : Element :=
  { depth := depth, tag := tag, attrs := attrs, style := [], clicks := [] }

/-- The table `orders` with row A holding a link to `/orders/1` and row B
holding none. -/
def ordersDoc : Doc :=
  [ el 0 "table" [("id", "orders")],
    el 1 "tr" [],
    el 2 "td" [],
    el 3 "a" [("href", "/orders/1")],
    el 1 "tr" [],
    el 2 "td" [] ]


/-! ## Notions used to state the properties -/

/-- An element without what the script may add: style and handlers erased. -/
def bare (e : Element) : Element :=
  { e with style := [], clicks := [] }

/-- The document as markup: nesting, tags and attributes only. -/
def skeleton (doc : Doc) : Doc :=
  doc.map bare

/-- A row after lines 32-35 ran for it with the captured string `h`. -/
def bound (h : String) (e : Element) : Element :=
  { e with clicks := e.clicks ++ [Handler.mk h], style := setStyle e.style "cursor" "pointer" }

/-- A row after the callback ran for it, `href` being what line 30 read. -/
def boundIf (href : Option String) (e : Element) : Element :=
  match href with
  | some h => bound h e
  | none => e

/-- The events of the callback for one row. -/
def rowEvents (doc : Doc) (row : Nat) : List Event :=
  match rowHref doc row with
  | some h => [Event.click row h, Event.css row "cursor" "pointer"]
  | none => []

/-- The string one call of `make_table_rows_clickable(table_id)` binds to element
`i`, if it binds one: `i` is among the rows found and line 30 reads a string. -/
def binding (engine : Engine) (doc : Doc) (table_id : String) (i : Nat) : Option String :=
  match jQuery engine doc ("#" ++ table_id) with
  | .ok table => if i ∈ find doc table "tr" then rowHref doc i else none
  | .error _ => none

/-- The DOM call `element.setAttribute(name, value)` on element `i`. -/
def setAttribute (doc : Doc) (i : Nat) (name value : String) : Doc :=
  doc.modify (fun e => { e with attrs := (name, value) :: e.attrs.filter (fun kv => kv.1 != name) }) i

/-- The page one call of `make_table_rows_clickable(id)` leaves. -/
def once (engine : Engine) (doc : Doc) (trace : List Event) (id : String) : Page :=
  (make_table_rows_clickable engine { doc := doc, trace := trace } id).page

/-- The page a second call of `make_table_rows_clickable(id)` leaves, run right
after the first. -/
def twice (engine : Engine) (doc : Doc) (trace : List Event) (id : String) : Page :=
  (make_table_rows_clickable engine (once engine doc trace id) id).page

/-- The console lines of a trace. -/
def consoleOf (trace : List Event) : List String :=
  trace.filterMap (fun ev => match ev with | .log line => some line | _ => none)

/-- The calls of `make_table_rows_clickable` of a trace, by identifier. -/
def callsOf (trace : List Event) : List String :=
  trace.filterMap Event.callee

/-- The document mutations of a trace. -/
def mutationsOf (trace : List Event) : List Event :=
  trace.filter Event.isMutation

/-- The events of one call `make_table_rows_clickable(table_id)` on a document. -/
def callEvents (engine : Engine) (doc : Doc) (table_id : String) : List Event :=
  Event.call table_id ::
    match jQuery engine doc ("#" ++ table_id) with
    | .error _ => []
    | .ok table =>
      if table.length == 0 then
        [Event.log ("make_table_rows_clickable: Could not find table: " ++ table_id)]
      else (find doc table "tr").flatMap (rowEvents doc)

/-- The events of one round of the loop of lines 54-57. -/
def roundEvents (engine : Engine) (doc : Doc) (id : String) : List Event :=
  Event.log ("Searching for table: " ++ id) :: callEvents engine doc id

/-- A table `t` whose only row holds an anchor without `href` followed by an
anchor with `href="/x"`. -/
def twoAnchorsDoc : Doc :=
  [ el 0 "table" [("id", "t")],
    el 1 "tr" [],
    el 2 "td" [],
    el 3 "a" [("name", "top")],
    el 3 "a" [("href", "/x")] ]

/-- A table `inner` nested in a cell of the table `outer`; the row of `inner`
holds a link to `/i`. -/
def nestedDoc : Doc :=
  [ el 0 "table" [("id", "outer")],
    el 1 "tr" [],
    el 2 "td" [],
    el 3 "table" [("id", "inner")],
    el 4 "tr" [],
    el 5 "td" [],
    el 6 "a" [("href", "/i")] ]

/-- A table `t` with one row holding a link to `/x`. -/
def smallDoc : Doc :=
  [ el 0 "table" [("id", "t")],
    el 1 "tr" [],
    el 2 "a" [("href", "/x")] ]

/-- Two tables side by side, `orders` and `other`, each with one row holding a link. -/
def twoTablesDoc : Doc :=
  [ el 0 "table" [("id", "orders")],
    el 1 "tr" [],
    el 2 "a" [("href", "/orders/1")],
    el 0 "table" [("id", "other")],
    el 1 "tr" [],
    el 2 "a" [("href", "/other/1")] ]

/-- A table `t` whose row holds a link with the empty `href`. -/
def emptyHrefDoc : Doc :=
  [ el 0 "table" [("id", "t")],
    el 1 "tr" [],
    el 2 "a" [("href", "")] ]

/-! ## The document model -/

theorem length_skeleton (doc : Doc) : (skeleton doc).length = doc.length := by
  simp [skeleton]

theorem getElem?_skeleton (doc : Doc) (i : Nat) : (skeleton doc)[i]? = (doc[i]?).map bare := by
  simp [skeleton]

theorem isDescendant_skeleton (doc : Doc) (i j : Nat) :
    isDescendant (skeleton doc) i j = isDescendant doc i j := by
  unfold isDescendant
  rw [getElem?_skeleton, length_skeleton]
  cases h : doc[i]? with
  | none => rfl
  | some e =>
    simp only [Option.map_some', skeleton, ← List.map_drop, ← List.map_take, List.all_map]
    rfl

theorem tagOf_skeleton (doc : Doc) (j : Nat) : tagOf (skeleton doc) j = tagOf doc j := by
  unfold tagOf
  rw [getElem?_skeleton]
  cases doc[j]? <;> rfl

theorem attrs_skeleton (doc : Doc) (i : Nat) (name : String) :
    ((skeleton doc)[i]?).bind (fun e => e.attrs.lookup name)
      = (doc[i]?).bind (fun e => e.attrs.lookup name) := by
  rw [getElem?_skeleton]
  cases doc[i]? <;> rfl

theorem getElementById_skeleton (doc : Doc) (id : String) :
    getElementById (skeleton doc) id = getElementById doc id := by
  unfold getElementById
  rw [length_skeleton]
  congr 1
  funext j
  rw [attrs_skeleton]

theorem find_skeleton (doc : Doc) (c : List Nat) (tag : String) :
    find (skeleton doc) c tag = find doc c tag := by
  unfold find
  rw [length_skeleton]
  congr 1
  funext j
  simp only [isDescendant_skeleton, tagOf_skeleton]

theorem attr_skeleton (doc : Doc) (c : List Nat) (name : String) :
    attr (skeleton doc) c name = attr doc c name := by
  cases c with
  | nil => rfl
  | cons i _ => exact attrs_skeleton doc i name

theorem rowHref_skeleton (doc : Doc) (row : Nat) :
    rowHref (skeleton doc) row = rowHref doc row := by
  unfold rowHref
  simp only [find_skeleton, attr_skeleton]

theorem rowEvents_skeleton (doc : Doc) (row : Nat) :
    rowEvents (skeleton doc) row = rowEvents doc row := by
  unfold rowEvents
  rw [rowHref_skeleton]

theorem find_congr {d1 d2 : Doc} (h : skeleton d1 = skeleton d2) (c : List Nat) (tag : String) :
    find d1 c tag = find d2 c tag := by
  rw [← find_skeleton d1, ← find_skeleton d2, h]

theorem rowHref_congr {d1 d2 : Doc} (h : skeleton d1 = skeleton d2) (row : Nat) :
    rowHref d1 row = rowHref d2 row := by
  rw [← rowHref_skeleton d1, ← rowHref_skeleton d2, h]

theorem rowEvents_congr {d1 d2 : Doc} (h : skeleton d1 = skeleton d2) (row : Nat) :
    rowEvents d1 row = rowEvents d2 row := by
  rw [← rowEvents_skeleton d1, ← rowEvents_skeleton d2, h]

theorem getElementById_congr {d1 d2 : Doc} (h : skeleton d1 = skeleton d2) (id : String) :
    getElementById d1 id = getElementById d2 id := by
  rw [← getElementById_skeleton d1, ← getElementById_skeleton d2, h]

theorem skeleton_modify (doc : Doc) (f : Element → Element) (n : Nat)
    (hf : ∀ e, bare (f e) = bare e) : skeleton (doc.modify f n) = skeleton doc := by
  apply List.ext_getElem?
  intro i
  rw [getElem?_skeleton, getElem?_skeleton, List.getElem?_modify]
  cases doc[i]? with
  | none => rfl
  | some e =>
    by_cases hn : n = i
    · simp [hn, hf]
    · simp [hn]

theorem mem_find {doc : Doc} {c : List Nat} {tag : String} {j : Nat} :
    j ∈ find doc c tag ↔ (∃ i ∈ c, isDescendant doc i j = true) ∧ tagOf doc j = some tag := by
  unfold find
  simp only [List.mem_filter, List.mem_range, Bool.and_eq_true, List.any_eq_true, beq_iff_eq]
  constructor
  · rintro ⟨_, h1, h2⟩
    exact ⟨h1, h2⟩
  · rintro ⟨h1, h2⟩
    refine ⟨?_, h1, h2⟩
    unfold tagOf at h2
    by_contra hlt
    rw [List.getElem?_eq_none (by omega)] at h2
    simp at h2

theorem nodup_find (doc : Doc) (c : List Nat) (tag : String) : (find doc c tag).Nodup :=
  (List.nodup_range _).filter _

theorem find_nil (doc : Doc) (tag : String) : find doc [] tag = [] := by
  simp [find]

/-! ## The `each` callback and the scan of one table -/

theorem bare_bound (h : String) (e : Element) : bare (bound h e) = bare e := rfl

theorem bare_boundIf (href : Option String) (e : Element) : bare (boundIf href e) = bare e := by
  cases href <;> rfl

theorem each_row_doc (p : Page) (row : Nat) :
    (each_row p row).doc = p.doc.modify (boundIf (rowHref p.doc row)) row := by
  unfold each_row
  cases h : rowHref p.doc row with
  | none =>
    have hid : boundIf (none : Option String) = id := rfl
    rw [hid, List.modify_id]
  | some v =>
    simp only [Page.css, Page.click, List.modify_modify_eq]
    rfl

theorem each_row_trace (p : Page) (row : Nat) :
    (each_row p row).trace = p.trace ++ rowEvents p.doc row := by
  unfold each_row rowEvents
  cases h : rowHref p.doc row with
  | none => simp
  | some v => simp [Page.css, Page.click]

theorem skeleton_each_row (p : Page) (row : Nat) :
    skeleton (each_row p row).doc = skeleton p.doc := by
  rw [each_row_doc]
  exact skeleton_modify _ _ _ (bare_boundIf _)

theorem skeleton_foldl_each_row (rows : List Nat) (p : Page) :
    skeleton (rows.foldl each_row p).doc = skeleton p.doc := by
  induction rows generalizing p with
  | nil => rfl
  | cons r rs ih => rw [List.foldl_cons, ih, skeleton_each_row]

theorem foldl_each_row_trace (rows : List Nat) (p : Page) :
    (rows.foldl each_row p).trace = p.trace ++ rows.flatMap (rowEvents p.doc) := by
  induction rows generalizing p with
  | nil => simp
  | cons r rs ih =>
    rw [List.foldl_cons, ih, each_row_trace, List.flatMap_cons, List.append_assoc]
    congr 2
    apply List.flatMap_congr
    intro x _
    exact rowEvents_congr (skeleton_each_row p r) x

theorem foldl_each_row_getElem? (rows : List Nat) (hnd : rows.Nodup) (p : Page) (i : Nat) :
    (rows.foldl each_row p).doc[i]?
      = (p.doc[i]?).map (fun e => if i ∈ rows then boundIf (rowHref p.doc i) e else e) := by
  induction rows generalizing p with
  | nil => simp
  | cons r rs ih =>
    rw [List.nodup_cons] at hnd
    rw [List.foldl_cons, ih hnd.2, each_row_doc, List.getElem?_modify,
      rowHref_congr (skeleton_modify _ _ _ (bare_boundIf _))]
    cases p.doc[i]? with
    | none => rfl
    | some e =>
      by_cases hri : r = i
      · subst hri
        simp [hnd.1]
      · have hir : ¬ i = r := fun h => hri h.symm
        simp [hri, hir]

/-! ## One call of `make_table_rows_clickable` -/

theorem quickId_token (id : String) (h : isIdToken id = true) : quickId ("#" ++ id) = some id := by
  have hd : ("#" ++ id).data = '#' :: id.data := by
    rw [String.data_append]
    rfl
  unfold quickId
  rw [hd]
  simp [h]

theorem jQuery_token (engine : Engine) (doc : Doc) (id : String) (h : isIdToken id = true) :
    jQuery engine doc ("#" ++ id) = .ok (getElementById doc id).toList := by
  unfold jQuery
  rw [quickId_token id h]

theorem jQuery_congr_token (engine : Engine) {d1 d2 : Doc} (hs : skeleton d1 = skeleton d2)
    (id : String) (h : isIdToken id = true) :
    jQuery engine d1 ("#" ++ id) = jQuery engine d2 ("#" ++ id) := by
  rw [jQuery_token engine d1 id h, jQuery_token engine d2 id h, getElementById_congr hs]

theorem binding_congr_token (engine : Engine) {d1 d2 : Doc} (hs : skeleton d1 = skeleton d2)
    (id : String) (h : isIdToken id = true) (i : Nat) :
    binding engine d1 id i = binding engine d2 id i := by
  unfold binding
  rw [jQuery_congr_token engine hs id h]
  cases jQuery engine d2 ("#" ++ id) with
  | error _ => rfl
  | ok table => simp only [find_congr hs, rowHref_congr hs]

theorem callEvents_congr_token (engine : Engine) {d1 d2 : Doc} (hs : skeleton d1 = skeleton d2)
    (id : String) (h : isIdToken id = true) :
    callEvents engine d1 id = callEvents engine d2 id := by
  unfold callEvents
  rw [jQuery_congr_token engine hs id h]
  cases jQuery engine d2 ("#" ++ id) with
  | error _ => rfl
  | ok table =>
    simp only [find_congr hs]
    have hr : rowEvents d1 = rowEvents d2 := funext (rowEvents_congr hs)
    rw [hr]

theorem make_table_rows_clickable_thrown (engine : Engine) (p : Page) (table_id : String) :
    (make_table_rows_clickable engine p table_id).thrown
      = match jQuery engine p.doc ("#" ++ table_id) with
        | .error e => some e
        | .ok _ => none := by
  unfold make_table_rows_clickable
  simp only [Page.enter]
  cases jQuery engine p.doc ("#" ++ table_id) with
  | error e => rfl
  | ok table => by_cases h : (table.length == 0) = true <;> simp [h]

theorem make_table_rows_clickable_trace (engine : Engine) (p : Page) (table_id : String) :
    (make_table_rows_clickable engine p table_id).page.trace
      = p.trace ++ callEvents engine p.doc table_id := by
  unfold make_table_rows_clickable callEvents
  simp only [Page.enter]
  cases jQuery engine p.doc ("#" ++ table_id) with
  | error e => simp
  | ok table =>
    by_cases h : (table.length == 0) = true
    · simp [h, Page.log]
    · simp [h, foldl_each_row_trace]

theorem make_table_rows_clickable_getElem? (engine : Engine) (p : Page) (table_id : String)
    (i : Nat) :
    (make_table_rows_clickable engine p table_id).page.doc[i]?
      = (p.doc[i]?).map (boundIf (binding engine p.doc table_id i)) := by
  unfold make_table_rows_clickable binding
  simp only [Page.enter]
  cases jQuery engine p.doc ("#" ++ table_id) with
  | error e =>
    simp only [boundIf]
    cases p.doc[i]? <;> rfl
  | ok table =>
    by_cases h : (table.length == 0) = true
    · have ht : table = [] := by simpa using h
      subst ht
      simp only [List.length_nil, beq_self_eq_true, ↓reduceIte, Page.log, find_nil,
        List.not_mem_nil, boundIf]
      cases p.doc[i]? <;> rfl
    · simp only [h, Bool.false_eq_true, ↓reduceIte]
      rw [foldl_each_row_getElem? _ (nodup_find _ _ _)]
      congr 1
      funext e
      by_cases hi : i ∈ find p.doc table "tr"
      · simp [hi]
      · simp [hi, boundIf]

theorem skeleton_of_getElem? {d1 d2 : Doc}
    (h : ∀ i : Nat, ∃ href : Option String, d1[i]? = (d2[i]?).map (boundIf href)) :
    skeleton d1 = skeleton d2 := by
  apply List.ext_getElem?
  intro i
  rw [getElem?_skeleton, getElem?_skeleton]
  obtain ⟨href, h⟩ := h i
  rw [h]
  cases d2[i]? with
  | none => rfl
  | some e => simp [bare_boundIf]

theorem skeleton_make_table_rows_clickable (engine : Engine) (p : Page) (table_id : String) :
    skeleton (make_table_rows_clickable engine p table_id).page.doc = skeleton p.doc :=
  skeleton_of_getElem? (fun i => ⟨_, make_table_rows_clickable_getElem? engine p table_id i⟩)

theorem binding_token (engine : Engine) (doc : Doc) (id : String) (i : Nat)
    (htok : isIdToken id = true) :
    binding engine doc id i
      = if i ∈ find doc (getElementById doc id).toList "tr" then rowHref doc i else none := by
  unfold binding
  rw [jQuery_token engine doc id htok]


/-! ## The loop over the identifiers -/

theorem binding_cases (engine : Engine) (doc : Doc) (table_id : String) (i : Nat) :
    binding engine doc table_id i = none ∨
      (binding engine doc table_id i = rowHref doc i ∧ tagOf doc i = some "tr") := by
  unfold binding
  cases jQuery engine doc ("#" ++ table_id) with
  | error _ => exact Or.inl rfl
  | ok table =>
    by_cases hi : i ∈ find doc table "tr"
    · exact Or.inr ⟨by simp [hi], (mem_find.mp hi).2⟩
    · exact Or.inl (by simp [hi])

theorem for_of_nil (engine : Engine) (p : Page) :
    for_of engine p [] = { page := p, thrown := none } := rfl

theorem for_of_cons_ok (engine : Engine) (p : Page) (id : String) (rest : List String)
    (h : (make_table_rows_clickable engine (p.log ("Searching for table: " ++ id)) id).thrown
      = none) :
    for_of engine p (id :: rest)
      = for_of engine
          (make_table_rows_clickable engine (p.log ("Searching for table: " ++ id)) id).page
          rest := by
  rw [for_of]
  simp only [h]

theorem for_of_cons_thrown (engine : Engine) (p : Page) (id : String) (rest : List String)
    (e : JsError)
    (h : (make_table_rows_clickable engine (p.log ("Searching for table: " ++ id)) id).thrown
      = some e) :
    for_of engine p (id :: rest)
      = { page :=
            (make_table_rows_clickable engine (p.log ("Searching for table: " ++ id)) id).page,
          thrown := some e } := by
  rw [for_of]
  simp only [h]

theorem skeleton_for_of (engine : Engine) (ids : List String) (p : Page) :
    skeleton (for_of engine p ids).page.doc = skeleton p.doc := by
  induction ids generalizing p with
  | nil => rfl
  | cons id rest ih =>
    cases h : (make_table_rows_clickable engine (p.log ("Searching for table: " ++ id)) id).thrown
      with
    | none =>
      rw [for_of_cons_ok engine p id rest h, ih, skeleton_make_table_rows_clickable]
      rfl
    | some e =>
      rw [for_of_cons_thrown engine p id rest e h]
      exact skeleton_make_table_rows_clickable engine _ id

theorem make_table_rows_clickable_thrown_token (engine : Engine) (p : Page) (id : String)
    (h : isIdToken id = true) : (make_table_rows_clickable engine p id).thrown = none := by
  rw [make_table_rows_clickable_thrown, jQuery_token engine p.doc id h]

theorem for_of_token (engine : Engine) (ids : List String)
    (htok : ∀ id ∈ ids, isIdToken id = true) (p : Page) :
    (for_of engine p ids).thrown = none ∧
    (for_of engine p ids).page.trace = p.trace ++ ids.flatMap (roundEvents engine p.doc) ∧
    ∀ i : Nat, (for_of engine p ids).page.doc[i]?
      = (p.doc[i]?).map (fun e => ids.foldl (fun e id => boundIf (binding engine p.doc id i) e) e) := by
  induction ids generalizing p with
  | nil =>
    refine ⟨rfl, by simp [for_of_nil], fun i => ?_⟩
    simp [for_of_nil]
  | cons id rest ih =>
    have hid : isIdToken id = true := htok id (List.mem_cons_self _ _)
    have hrest : ∀ x ∈ rest, isIdToken x = true := fun x hx => htok x (List.mem_cons_of_mem _ hx)
    have hok := make_table_rows_clickable_thrown_token engine
      (p.log ("Searching for table: " ++ id)) id hid
    have hsk : skeleton
        (make_table_rows_clickable engine (p.log ("Searching for table: " ++ id)) id).page.doc
        = skeleton p.doc := skeleton_make_table_rows_clickable engine _ id
    rw [for_of_cons_ok engine p id rest hok]
    obtain ⟨h1, h2, h3⟩ := ih hrest
      (make_table_rows_clickable engine (p.log ("Searching for table: " ++ id)) id).page
    refine ⟨h1, ?_, fun i => ?_⟩
    · rw [h2, make_table_rows_clickable_trace, List.flatMap_cons]
      have hr : ∀ x ∈ rest, roundEvents engine
          (make_table_rows_clickable engine (p.log ("Searching for table: " ++ id)) id).page.doc x
          = roundEvents engine p.doc x := by
        intro x hx
        unfold roundEvents
        rw [callEvents_congr_token engine hsk x (hrest x hx)]
      rw [List.flatMap_congr hr]
      simp [roundEvents, Page.log]
    · rw [h3 i, make_table_rows_clickable_getElem?]
      have hb : ∀ x ∈ rest, binding engine
          (make_table_rows_clickable engine (p.log ("Searching for table: " ++ id)) id).page.doc x i
          = binding engine p.doc x i :=
        fun x hx => binding_congr_token engine hsk x (hrest x hx) i
      have hfold : ∀ (l : List String) (e : Element),
          (∀ x ∈ l, x ∈ rest) →
          l.foldl (fun e id_1 => boundIf (binding engine
            (make_table_rows_clickable engine (p.log ("Searching for table: " ++ id)) id).page.doc
            id_1 i) e) e
          = l.foldl (fun e id_1 => boundIf (binding engine p.doc id_1 i) e) e := by
        intro l
        induction l with
        | nil => intro e _; rfl
        | cons y ys ihy =>
          intro e hys
          rw [List.foldl_cons, List.foldl_cons, hb y (hys y (List.mem_cons_self _ _))]
          exact ihy _ (fun x hx => hys x (List.mem_cons_of_mem _ hx))
      have hpd : (p.log ("Searching for table: " ++ id)).doc = p.doc := rfl
      rw [hpd]
      cases p.doc[i]? with
      | none => rfl
      | some e =>
        simp only [Option.map_some', List.foldl_cons]
        rw [hfold rest _ (fun x hx => hx)]

theorem for_of_grown (engine : Engine) (ids : List String) (p : Page) (i : Nat) :
    ∃ n : Nat, n ≤ ids.length ∧ (0 < n → tagOf p.doc i = some "tr") ∧
      (for_of engine p ids).page.doc[i]? = (p.doc[i]?).map ((boundIf (rowHref p.doc i))^[n]) := by
  induction ids generalizing p with
  | nil => exact ⟨0, Nat.le_refl _, fun h => absurd h (Nat.lt_irrefl 0), by simp [for_of_nil]⟩
  | cons id rest ih =>
    have hsk : skeleton
        (make_table_rows_clickable engine (p.log ("Searching for table: " ++ id)) id).page.doc
        = skeleton p.doc := skeleton_make_table_rows_clickable engine _ id
    have hstep := make_table_rows_clickable_getElem? engine
      (p.log ("Searching for table: " ++ id)) id i
    have hpd : (p.log ("Searching for table: " ++ id)).doc = p.doc := rfl
    rw [hpd] at hstep
    have htag : tagOf (make_table_rows_clickable engine
        (p.log ("Searching for table: " ++ id)) id).page.doc i = tagOf p.doc i := by
      rw [← tagOf_skeleton, hsk, tagOf_skeleton]
    -- the first call binds the row once or leaves it alone
    have hfirst : ∃ m : Nat, m ≤ 1 ∧ (0 < m → tagOf p.doc i = some "tr") ∧
        (make_table_rows_clickable engine (p.log ("Searching for table: " ++ id)) id).page.doc[i]?
          = (p.doc[i]?).map ((boundIf (rowHref p.doc i))^[m]) := by
      rcases binding_cases engine p.doc id i with hb | ⟨hb, ht⟩
      · refine ⟨0, Nat.zero_le _, fun h => absurd h (Nat.lt_irrefl 0), ?_⟩
        rw [hstep, hb]
        cases p.doc[i]? <;> rfl
      · refine ⟨1, Nat.le_refl _, fun _ => ht, ?_⟩
        rw [hstep, hb]
        rfl
    obtain ⟨m, hm1, hmt, hmd⟩ := hfirst
    cases h : (make_table_rows_clickable engine (p.log ("Searching for table: " ++ id)) id).thrown
      with
    | some e =>
      rw [for_of_cons_thrown engine p id rest e h]
      exact ⟨m, by simp only [List.length_cons]; omega, hmt, hmd⟩
    | none =>
      rw [for_of_cons_ok engine p id rest h]
      obtain ⟨n, hn1, hnt, hnd⟩ := ih
        (make_table_rows_clickable engine (p.log ("Searching for table: " ++ id)) id).page
      refine ⟨n + m, by simp only [List.length_cons]; omega, ?_, ?_⟩
      · intro hpos
        by_cases hm0 : 0 < m
        · exact hmt hm0
        · rw [← htag]
          exact hnt (by omega)
      · rw [hnd, hmd, rowHref_congr hsk]
        cases p.doc[i]? with
        | none => rfl
        | some e => simp only [Option.map_some', Function.iterate_add_apply]

theorem script_array (engine : Engine) (ids : List String) (doc : Doc) :
    script (.parsed (.value (.array ids))) (.loaded engine) doc
      = for_of engine { doc := doc, trace := [] } ids := rfl

theorem foldl_boundIf_none (ids : List String) (f : String → Option String)
    (h : ∀ id ∈ ids, f id = none) (e : Element) :
    ids.foldl (fun e id => boundIf (f id) e) e = e := by
  induction ids generalizing e with
  | nil => rfl
  | cons x xs ih =>
    rw [List.foldl_cons, h x (List.mem_cons_self _ _)]
    exact ih (fun y hy => h y (List.mem_cons_of_mem _ hy)) e

theorem mem_roundEvents {engine : Engine} {doc : Doc} {id : String} {ev : Event}
    (h : ev ∈ roundEvents engine doc id) :
    ev = Event.log ("Searching for table: " ++ id) ∨ ev ∈ callEvents engine doc id := by
  unfold roundEvents at h
  exact List.mem_cons.mp h


/-! ## Nesting -/

theorem isDescendant_iff {doc : Doc} {i j : Nat} :
    isDescendant doc i j = true ↔
      ∃ e, doc[i]? = some e ∧ i < j ∧ j < doc.length ∧
        ∀ k x, i < k → k ≤ j → doc[k]? = some x → e.depth < x.depth := by
  unfold isDescendant
  cases he : doc[i]? with
  | none => simp
  | some e =>
    simp only [Bool.and_eq_true, decide_eq_true_eq, List.all_eq_true, Option.some.injEq,
      exists_eq_left']
    constructor
    · rintro ⟨⟨hij, hj⟩, hall⟩
      refine ⟨hij, hj, ?_⟩
      intro k x hik hkj hx
      apply hall
      rw [List.mem_iff_getElem?]
      refine ⟨k - (i + 1), ?_⟩
      rw [List.getElem?_take]
      have hlt : k - (i + 1) < j - i := by omega
      simp only [hlt, ↓reduceIte, List.getElem?_drop]
      rw [← hx]
      congr 1
      omega
    · rintro ⟨hij, hj, hall⟩
      refine ⟨⟨hij, hj⟩, ?_⟩
      intro x hx
      rw [List.mem_iff_getElem?] at hx
      obtain ⟨n, hn⟩ := hx
      rw [List.getElem?_take] at hn
      by_cases hlt : n < j - i
      · simp only [hlt, ↓reduceIte, List.getElem?_drop] at hn
        exact hall (i + 1 + n) x (by omega) (by omega) hn
      · simp [hlt] at hn

theorem isDescendant_chain {doc : Doc} {c t r : Nat}
    (hc : isDescendant doc c r = true) (ht : isDescendant doc t r = true) :
    t = c ∨ isDescendant doc t c = true ∨ isDescendant doc c t = true := by
  obtain ⟨ec, hec, hcr, hr, hcall⟩ := isDescendant_iff.mp hc
  obtain ⟨et, het, htr, _, htall⟩ := isDescendant_iff.mp ht
  rcases Nat.lt_trichotomy t c with h | h | h
  · refine Or.inr (Or.inl (isDescendant_iff.mpr ⟨et, het, h, by omega, ?_⟩))
    intro k x hk1 hk2 hx
    exact htall k x hk1 (by omega) hx
  · exact Or.inl h
  · refine Or.inr (Or.inr (isDescendant_iff.mpr ⟨ec, hec, h, by omega, ?_⟩))
    intro k x hk1 hk2 hx
    exact hcall k x hk1 (by omega) hx

theorem getElementById_some {doc : Doc} {id : String} {t : Nat}
    (h : getElementById doc id = some t) :
    (doc[t]?).bind (fun e => e.attrs.lookup "id") = some id := by
  unfold getElementById at h
  have := List.find?_some h
  simpa using this

/-! ## Properties of one call -/

theorem getStyle_setStyle (style : List (String × String)) (name value : String) :
    getStyle (setStyle style name value) name = some value := by
  simp [getStyle, setStyle, List.lookup]

theorem rowHref_of_head {doc : Doc} {row a : Nat}
    (ha : (find doc [row] "a").head? = some a) : rowHref doc row = attr doc [a] "href" := by
  unfold rowHref
  cases hf : find doc [row] "a" with
  | nil => rw [hf] at ha; simp at ha
  | cons x xs =>
    rw [hf] at ha
    simp only [List.head?_cons, Option.some.injEq] at ha
    subst ha
    rfl

theorem binding_of_mem {engine : Engine} {doc : Doc} {table_id : String} {table : List Nat}
    {row : Nat} (hres : jQuery engine doc ("#" ++ table_id) = .ok table)
    (hrow : row ∈ find doc table "tr") : binding engine doc table_id row = rowHref doc row := by
  unfold binding
  rw [hres]
  simp [hrow]

/-- C1: when the identifier resolves and a row found in the container has a first
anchor (document order) with `href` equal to the string `h`, then after
`make_table_rows_clickable` the row carries one more click handler, registered
last, whose activation sets `window.location` to `h`; the row's `cursor` style
is `pointer`; and the handler keeps `h` when the anchor's `href` is changed
afterwards.  The empty string is a string like any other. -/
theorem row_gets_handler_for_first_anchor_href (engine : Engine) (doc : Doc)
    (trace : List Event) (table_id : String) (table : List Nat) (row a : Nat) (e : Element)
    (h : String)
    (hres : jQuery engine doc ("#" ++ table_id) = .ok table)
    (hrow : row ∈ find doc table "tr")
    (he : doc[row]? = some e)
    (ha : (find doc [row] "a").head? = some a)
    (hh : attr doc [a] "href" = some h) :
    ∃ e1 : Element,
      (make_table_rows_clickable engine { doc := doc, trace := trace } table_id).page.doc[row]?
        = some e1 ∧
      e1.clicks = e.clicks ++ [Handler.mk h] ∧
      (∀ w : Window, ((Handler.mk h).activate w).location = h) ∧
      getStyle e1.style "cursor" = some "pointer" ∧
      ∀ v : String, ∃ e2 : Element,
        (setAttribute
          (make_table_rows_clickable engine { doc := doc, trace := trace } table_id).page.doc
          a "href" v)[row]? = some e2 ∧
        e2.clicks = e.clicks ++ [Handler.mk h] := by
  have hfirst : ∀ (d : Doc) (r x : Nat),
      (find d [r] "a").head? = some x → rowHref d r = attr d [x] "href" := by
    intro d r x hx
    unfold rowHref
    cases hf : find d [r] "a" with
    | nil => rw [hf] at hx; simp at hx
    | cons y ys =>
      rw [hf] at hx
      simp only [List.head?_cons, Option.some.injEq] at hx
      subst hx
      rfl
  have hb : binding engine doc table_id row = some h := by
    rw [binding_of_mem hres hrow, hfirst doc row a ha, hh]
  have hdoc : (make_table_rows_clickable engine { doc := doc, trace := trace } table_id).page.doc[row]?
      = some (bound h e) := by
    rw [make_table_rows_clickable_getElem?]
    simp only [he, hb, Option.map_some', boundIf]
  refine ⟨bound h e, hdoc, rfl, fun _ => rfl, getStyle_setStyle _ _ _, ?_⟩
  intro v
  unfold setAttribute
  rw [List.getElem?_modify, hdoc]
  by_cases har : a = row
  · exact ⟨_, by simp only [har, ↓reduceIte, Option.map_eq_map, Option.map_some']; rfl, rfl⟩
  · exact ⟨bound h e, by simp [har], rfl⟩

/-- Witness for C1: row A of the table `orders`, and a row whose link has the
empty `href`. -/
theorem row_gets_handler_for_first_anchor_href_witness :
    (jQuery noEngine ordersDoc ("#" ++ "orders") = .ok [0] ∧
      1 ∈ find ordersDoc [0] "tr" ∧
      ordersDoc[1]? = some (el 1 "tr" []) ∧
      (find ordersDoc [1] "a").head? = some 3 ∧
      attr ordersDoc [3] "href" = some "/orders/1") ∧
    (∃ e1 : Element,
      (make_table_rows_clickable noEngine { doc := ordersDoc, trace := [] } "orders").page.doc[1]?
        = some e1 ∧
      e1.clicks = [Handler.mk "/orders/1"] ∧
      getStyle e1.style "cursor" = some "pointer") ∧
    (∃ e1 : Element,
      (make_table_rows_clickable noEngine { doc := emptyHrefDoc, trace := [] } "t").page.doc[1]?
        = some e1 ∧
      e1.clicks = [Handler.mk ""] ∧
      getStyle e1.style "cursor" = some "pointer") ∧
    (make_table_rows_clickable noEngine { doc := ordersDoc, trace := [] } "orders").page.doc[1]?
      = some { depth := 1, tag := "tr", attrs := [], style := [("cursor", "pointer")],
               clicks := [Handler.mk "/orders/1"] } :=
  ⟨⟨by rfl, by decide, by decide, by decide, by decide⟩,
    match row_gets_handler_for_first_anchor_href noEngine ordersDoc [] "orders" [0] 1 3
      (el 1 "tr" []) "/orders/1" (by rfl) (by decide) (by decide) (by decide) (by decide) with
    | ⟨e1, h1, h2, _, h4, _⟩ => ⟨e1, h1, h2, h4⟩,
    match row_gets_handler_for_first_anchor_href noEngine emptyHrefDoc [] "t" [0] 1 2
      (el 1 "tr" []) "" (by rfl) (by decide) (by decide) (by decide) (by decide) with
    | ⟨e1, h1, h2, _, h4, _⟩ => ⟨e1, h1, h2, h4⟩,
    by decide⟩

theorem mem_rowEvents {doc : Doc} {row : Nat} {ev : Event} (h : ev ∈ rowEvents doc row) :
    ∃ s, rowHref doc row = some s ∧
      (ev = Event.click row s ∨ ev = Event.css row "cursor" "pointer") := by
  unfold rowEvents at h
  cases hr : rowHref doc row with
  | none => rw [hr] at h; simp at h
  | some s =>
    rw [hr] at h
    simp only [List.mem_cons, List.mem_singleton, List.not_mem_nil, or_false] at h
    exact ⟨s, rfl, h⟩

theorem mem_callEvents {engine : Engine} {doc : Doc} {table_id : String} {ev : Event}
    (h : ev ∈ callEvents engine doc table_id) :
    ev = Event.call table_id ∨
    ev = Event.log ("make_table_rows_clickable: Could not find table: " ++ table_id) ∨
    ∃ table row s, jQuery engine doc ("#" ++ table_id) = .ok table ∧
      row ∈ find doc table "tr" ∧ rowHref doc row = some s ∧
      (ev = Event.click row s ∨ ev = Event.css row "cursor" "pointer") := by
  unfold callEvents at h
  rw [List.mem_cons] at h
  rcases h with h | h
  · exact Or.inl h
  · cases hj : jQuery engine doc ("#" ++ table_id) with
    | error e => rw [hj] at h; simp at h
    | ok table =>
      rw [hj] at h
      by_cases ht : (table.length == 0) = true
      · simp only [ht, ↓reduceIte, List.mem_singleton] at h
        exact Or.inr (Or.inl h)
      · simp only [ht, Bool.false_eq_true, ↓reduceIte, List.mem_flatMap] at h
        obtain ⟨row, hrow, hev⟩ := h
        obtain ⟨s, hs, hcase⟩ := mem_rowEvents hev
        exact Or.inr (Or.inr ⟨table, row, s, rfl, hrow, hs, hcase⟩)

/-- C2, evaluated on a row whose first anchor has no `href` and whose second
anchor has `href="/x"`: the row contains an anchor with a non-null `href`, yet
`make_table_rows_clickable` reads the first anchor only, registers nothing and
leaves the document as it was. -/
theorem first_anchor_without_href_hides_later_link :
    find twoAnchorsDoc [1] "a" = [3, 4] ∧
    attr twoAnchorsDoc [3] "href" = none ∧
    attr twoAnchorsDoc [4] "href" = some "/x" ∧
    1 ∈ find twoAnchorsDoc [0] "tr" ∧
    (make_table_rows_clickable noEngine { doc := twoAnchorsDoc, trace := [] } "t")
      = { page := { doc := twoAnchorsDoc, trace := [Event.call "t"] }, thrown := none } := by
  decide

/-- C4: a row found in a listed container that has no anchor descendant, or whose
first anchor has no `href`, is left as it was by `make_table_rows_clickable`:
same handlers, same style, and no handler registration or style change for it
among the events of the call. -/
theorem row_without_first_href_untouched (engine : Engine) (doc : Doc) (trace : List Event)
    (table_id : String) (table : List Nat) (row : Nat)
    (hres : jQuery engine doc ("#" ++ table_id) = .ok table)
    (hrow : row ∈ find doc table "tr")
    (hno : find doc [row] "a" = [] ∨
      ∃ a, (find doc [row] "a").head? = some a ∧ attr doc [a] "href" = none) :
    (make_table_rows_clickable engine { doc := doc, trace := trace } table_id).page.doc[row]?
      = doc[row]? ∧
    ∀ ev ∈ (make_table_rows_clickable engine { doc := doc, trace := [] } table_id).page.trace,
      (∀ s, ev ≠ Event.click row s) ∧ (∀ name value, ev ≠ Event.css row name value) := by
  have hnone : rowHref doc row = none := by
    rcases hno with h | ⟨a, ha, hh⟩
    · unfold rowHref
      rw [h]
      rfl
    · rw [rowHref_of_head ha, hh]
  constructor
  · rw [make_table_rows_clickable_getElem?, binding_of_mem hres hrow, hnone]
    show Option.map (boundIf none) doc[row]? = doc[row]?
    cases doc[row]? <;> rfl
  · intro ev hev
    rw [make_table_rows_clickable_trace, List.nil_append] at hev
    rcases mem_callEvents hev with h | h | ⟨t, r, s, _, _, hs, h | h⟩
    · subst h
      exact ⟨fun _ hc => (nomatch hc), fun _ _ hc => (nomatch hc)⟩
    · subst h
      exact ⟨fun _ hc => (nomatch hc), fun _ _ hc => (nomatch hc)⟩
    · subst h
      refine ⟨fun s2 hc => ?_, fun _ _ hc => (nomatch hc)⟩
      injection hc with h1 _
      subst h1
      rw [hnone] at hs
      cases hs
    · subst h
      refine ⟨fun _ hc => (nomatch hc), fun _ _ hc => ?_⟩
      injection hc with h1 _
      subst h1
      rw [hnone] at hs
      cases hs

/-- Witness for C4: row B of the table `orders` holds no anchor, and the row of
the two-anchor table has a first anchor without `href`. -/
theorem row_without_first_href_untouched_witness :
    (jQuery noEngine ordersDoc ("#" ++ "orders") = .ok [0] ∧
      4 ∈ find ordersDoc [0] "tr" ∧ find ordersDoc [4] "a" = []) ∧
    (make_table_rows_clickable noEngine { doc := ordersDoc, trace := [] } "orders").page.doc[4]?
      = ordersDoc[4]? ∧
    (jQuery noEngine twoAnchorsDoc ("#" ++ "t") = .ok [0] ∧
      1 ∈ find twoAnchorsDoc [0] "tr" ∧ (find twoAnchorsDoc [1] "a").head? = some 3 ∧
      attr twoAnchorsDoc [3] "href" = none) ∧
    (make_table_rows_clickable noEngine { doc := twoAnchorsDoc, trace := [] } "t").page.doc[1]?
      = twoAnchorsDoc[1]? :=
  ⟨⟨by rfl, by decide, by decide⟩,
    (row_without_first_href_untouched noEngine ordersDoc [] "orders" [0] 4 (by rfl) (by decide)
      (Or.inl (by decide))).1,
    ⟨by rfl, by decide, by decide, by decide⟩,
    (row_without_first_href_untouched noEngine twoAnchorsDoc [] "t" [0] 1 (by rfl) (by decide)
      (Or.inr ⟨3, by decide, by decide⟩)).1⟩

/-! ## Containers that are not listed -/

/-- C3, as stated, fails: the table `inner` is not in the list `["outer"]`, yet its
row, being a `tr` descendant of the listed table `outer` it is nested in, gets a
click handler and the pointer cursor. -/
theorem nested_unlisted_container_is_bound :
    "inner" ∉ ["outer"] ∧
    getElementById nestedDoc "inner" = some 3 ∧
    4 ∈ find nestedDoc [3] "tr" ∧
    nestedDoc[4]? = some (el 4 "tr" []) ∧
    (script (.parsed (.value (.array ["outer"]))) (.loaded noEngine) nestedDoc).page.doc[4]?
      = some { depth := 4, tag := "tr", attrs := [], style := [("cursor", "pointer")],
               clicks := [Handler.mk "/i"] } := by
  decide

/-- C3, amended: for identifiers that jQuery looks up by id, a container that is
not named in the list, is not nested inside a listed container and has no listed
container nested inside it keeps every row as it was after the whole pass: the
row is unchanged, and no handler registration or style change for it is among
the events of the pass. -/
theorem unlisted_separate_container_untouched (engine : Engine) (ids : List String) (doc : Doc)
    (c row : Nat)
    (htok : ∀ id ∈ ids, isIdToken id = true)
    (hc : ∀ id ∈ ids, (doc[c]?).bind (fun e => e.attrs.lookup "id") ≠ some id)
    (hsep : ∀ id ∈ ids, ∀ t, getElementById doc id = some t →
      isDescendant doc t c = false ∧ isDescendant doc c t = false)
    (hrow : row ∈ find doc [c] "tr") :
    (script (.parsed (.value (.array ids))) (.loaded engine) doc).page.doc[row]? = doc[row]? ∧
    ∀ ev ∈ (script (.parsed (.value (.array ids))) (.loaded engine) doc).page.trace,
      (∀ s, ev ≠ Event.click row s) ∧ (∀ name value, ev ≠ Event.css row name value) := by
  -- the row is not among the rows found for any listed identifier
  have hnot : ∀ id ∈ ids, ∀ table, jQuery engine doc ("#" ++ id) = .ok table →
      row ∉ find doc table "tr" := by
    intro id hid table hres hmem
    rw [jQuery_token engine doc id (htok id hid)] at hres
    injection hres with hres
    subst hres
    obtain ⟨⟨t, ht, hdesc⟩, _⟩ := mem_find.mp hmem
    have hget : getElementById doc id = some t := by
      cases hg : getElementById doc id with
      | none => rw [hg] at ht; simp at ht
      | some t2 =>
        rw [hg] at ht
        simp only [Option.toList_some, List.mem_singleton] at ht
        rw [ht]
    obtain ⟨⟨c2, hc2, hcdesc⟩, _⟩ := mem_find.mp hrow
    have hcc : c2 = c := by simpa using hc2
    subst hcc
    rcases isDescendant_chain hcdesc hdesc with h | h | h
    · subst h
      exact hc id hid (getElementById_some hget)
    · rw [(hsep id hid t hget).1] at h
      cases h
    · rw [(hsep id hid t hget).2] at h
      cases h
  have hbind : ∀ id ∈ ids, binding engine doc id row = none := by
    intro id hid
    unfold binding
    cases hj : jQuery engine doc ("#" ++ id) with
    | error _ => rfl
    | ok table => simp [hnot id hid table hj]
  obtain ⟨_, htrace, hdoc⟩ := for_of_token engine ids htok { doc := doc, trace := [] }
  rw [script_array]
  constructor
  · rw [hdoc row]
    show Option.map _ doc[row]? = doc[row]?
    cases doc[row]? with
    | none => rfl
    | some e =>
      simp only [Option.map_some']
      rw [foldl_boundIf_none ids (fun id => binding engine doc id row) hbind]
  · intro ev hev
    rw [htrace, List.nil_append, List.mem_flatMap] at hev
    obtain ⟨id, hid, hev⟩ := hev
    rcases mem_roundEvents hev with h | h
    · subst h
      exact ⟨fun _ hc => (nomatch hc), fun _ _ hc => (nomatch hc)⟩
    · rcases mem_callEvents h with h | h | ⟨table, r, s, hres, hr, _, h | h⟩
      · subst h
        exact ⟨fun _ hc => (nomatch hc), fun _ _ hc => (nomatch hc)⟩
      · subst h
        exact ⟨fun _ hc => (nomatch hc), fun _ _ hc => (nomatch hc)⟩
      · subst h
        refine ⟨fun s2 hc => ?_, fun _ _ hc => (nomatch hc)⟩
        injection hc with h1 _
        subst h1
        exact hnot id hid table hres hr
      · subst h
        refine ⟨fun _ hc => (nomatch hc), fun _ _ hc => ?_⟩
        injection hc with h1 _
        subst h1
        exact hnot id hid table hres hr

/-- Witness for C3: with the list `["orders"]`, the row of the table `other`
standing next to `orders`. -/
theorem unlisted_separate_container_untouched_witness :
    4 ∈ find twoTablesDoc [3] "tr" ∧
    ((script (.parsed (.value (.array ["orders"]))) (.loaded noEngine) twoTablesDoc).page.doc[4]?
      = twoTablesDoc[4]? ∧
    ∀ ev ∈ (script (.parsed (.value (.array ["orders"]))) (.loaded noEngine)
        twoTablesDoc).page.trace,
      (∀ s, ev ≠ Event.click 4 s) ∧ (∀ name value, ev ≠ Event.css 4 name value)) :=
  ⟨by decide,
    unlisted_separate_container_untouched noEngine ["orders"] twoTablesDoc 3 4
      (by decide) (by decide)
      (by
        intro id hid t ht
        have hid2 : id = "orders" := by simpa using hid
        subst hid2
        have h0 : getElementById twoTablesDoc "orders" = some 0 := by decide
        rw [h0] at ht
        injection ht with ht
        subst ht
        decide)
      (by decide)⟩

/-! ## The pass only adds -/

theorem setStyle_setStyle (style : List (String × String)) (name value : String) :
    setStyle (setStyle style name value) name value = setStyle style name value := by
  simp [setStyle, List.filter_filter]

theorem iterate_boundIf_none (n : Nat) (e : Element) :
    (boundIf (none : Option String))^[n] e = e := by
  induction n with
  | zero => rfl
  | succ n ih => rw [Function.iterate_succ_apply', ih]; rfl

theorem iterate_boundIf_some (h : String) (n : Nat) (e : Element) :
    (boundIf (some h))^[n + 1] e
      = { e with clicks := e.clicks ++ List.replicate (n + 1) (Handler.mk h),
                 style := setStyle e.style "cursor" "pointer" } := by
  induction n with
  | zero => rfl
  | succ n ih =>
    rw [Function.iterate_succ_apply', ih]
    simp only [boundIf, bound, setStyle_setStyle, List.append_assoc]
    congr 2
    exact (List.replicate_succ' _ _).symm

theorem attr_congr {d1 d2 : Doc} (h : skeleton d1 = skeleton d2) (c : List Nat) (name : String) :
    attr d1 c name = attr d2 c name := by
  rw [← attr_skeleton d1, ← attr_skeleton d2, h]

theorem tag_of_tagOf {doc : Doc} {i : Nat} {e : Element} {tag : String}
    (he : doc[i]? = some e) (ht : tagOf doc i = some tag) : e.tag = tag := by
  unfold tagOf at ht
  rw [he] at ht
  simpa using ht

theorem rowHref_none_of {doc : Doc} {i : Nat}
    (h : find doc [i] "a" = [] ∨
      ∃ a, (find doc [i] "a").head? = some a ∧ attr doc [a] "href" = none) :
    rowHref doc i = none := by
  rcases h with h | ⟨a, ha, hh⟩
  · unfold rowHref
    rw [h]
    rfl
  · rw [rowHref_of_head ha, hh]

theorem binding_none_of_not_scanned {engine : Engine} {doc : Doc} {table_id : String} {i : Nat}
    (h : ∀ table, jQuery engine doc ("#" ++ table_id) = .ok table → i ∉ find doc table "tr") :
    binding engine doc table_id i = none := by
  unfold binding
  cases hj : jQuery engine doc ("#" ++ table_id) with
  | error _ => rfl
  | ok table => simp [h table hj]

theorem foldl_boundIf_count (h : String) (P : String → Bool) (ids : List String) (e : Element) :
    ids.foldl (fun e id => boundIf (if P id = true then some h else none) e) e
      = (boundIf (some h))^[(ids.filter P).length] e := by
  induction ids generalizing e with
  | nil => rfl
  | cons x xs ih =>
    rw [List.foldl_cons, ih]
    by_cases hx : P x = true
    · simp only [hx, ↓reduceIte, List.filter_cons_of_pos, List.length_cons,
        Function.iterate_succ_apply]
    · simp only [hx, Bool.false_eq_true, ↓reduceIte, List.filter_cons_of_neg, not_false_eq_true]
      rfl

theorem iterate_boundIf_count (h : String) (n : Nat) (e : Element) :
    (boundIf (some h))^[n] e
      = { e with clicks := e.clicks ++ List.replicate n (Handler.mk h),
                 style := if n = 0 then e.style else setStyle e.style "cursor" "pointer" } := by
  cases n with
  | zero => simp
  | succ n => rw [iterate_boundIf_some]; simp

/-- C5, as stated, fails in one respect: with the table `orders` listed twice, row A
ends with two added handlers, not one. -/
theorem listed_twice_adds_two_handlers :
    ordersDoc[1]? = some (el 1 "tr" []) ∧
    (script (.parsed (.value (.array ["orders", "orders"]))) (.loaded noEngine)
      ordersDoc).page.doc[1]?
      = some { depth := 1, tag := "tr", attrs := [], style := [("cursor", "pointer")],
               clicks := [Handler.mk "/orders/1", Handler.mk "/orders/1"] } := by
  decide

/-- C5, amended: the pass only adds.  After the script ran over any list of
identifiers the document has the same elements in the same order, each with
its depth, tag and attributes (so every anchor keeps its `href`, none being
cleared) and with the handlers it had, in place; an element that is not a `tr`,
or has no anchor inside, or whose first anchor has no `href`, is exactly as it
was.  One call of `make_table_rows_clickable` gives a row it finds, whose first
anchor has the `href` `h`, exactly one more handler, for `h`, and the `pointer`
cursor, and leaves the rows it does not find as they were.  So, for a list of
identifiers that jQuery looks up by id, such a row ends with as many added
handlers for `h` as the list has entries (repetitions counted) whose container
holds the row, and with the `pointer` cursor once there is one. -/
theorem pass_only_adds_handlers_and_cursor (engine : Engine) (ids : List String) (doc : Doc) :
    (script (.parsed (.value (.array ids))) (.loaded engine) doc).page.doc.length = doc.length ∧
    (∀ i : Nat,
      attr (script (.parsed (.value (.array ids))) (.loaded engine) doc).page.doc [i] "href"
        = attr doc [i] "href") ∧
    (∀ (i : Nat) (e : Element), doc[i]? = some e →
      ∃ e1 : Element,
        (script (.parsed (.value (.array ids))) (.loaded engine) doc).page.doc[i]? = some e1 ∧
        e1.depth = e.depth ∧ e1.tag = e.tag ∧ e1.attrs = e.attrs ∧ e.clicks <+: e1.clicks) ∧
    (∀ (i : Nat) (e : Element), doc[i]? = some e →
      (e.tag ≠ "tr" ∨ find doc [i] "a" = [] ∨
        ∃ a, (find doc [i] "a").head? = some a ∧ attr doc [a] "href" = none) →
      (script (.parsed (.value (.array ids))) (.loaded engine) doc).page.doc[i]? = some e) ∧
    (∀ (table_id : String) (trace : List Event) (table : List Nat) (i a : Nat) (e : Element)
      (h : String),
      jQuery engine doc ("#" ++ table_id) = .ok table → i ∈ find doc table "tr" →
      doc[i]? = some e → (find doc [i] "a").head? = some a → attr doc [a] "href" = some h →
      (make_table_rows_clickable engine { doc := doc, trace := trace } table_id).page.doc[i]?
        = some { e with clicks := e.clicks ++ [Handler.mk h],
                        style := setStyle e.style "cursor" "pointer" }) ∧
    (∀ (table_id : String) (trace : List Event) (i : Nat),
      (∀ table, jQuery engine doc ("#" ++ table_id) = .ok table → i ∉ find doc table "tr") →
      (make_table_rows_clickable engine { doc := doc, trace := trace } table_id).page.doc[i]?
        = doc[i]?) ∧
    ((∀ id ∈ ids, isIdToken id = true) →
      ∀ (i a : Nat) (e : Element) (h : String),
      doc[i]? = some e → (find doc [i] "a").head? = some a → attr doc [a] "href" = some h →
      (script (.parsed (.value (.array ids))) (.loaded engine) doc).page.doc[i]?
        = some { e with
            clicks := e.clicks ++ List.replicate
              (ids.filter (fun id =>
                decide (i ∈ find doc (getElementById doc id).toList "tr"))).length
              (Handler.mk h),
            style :=
              if (ids.filter (fun id =>
                decide (i ∈ find doc (getElementById doc id).toList "tr"))).length = 0
              then e.style else setStyle e.style "cursor" "pointer" }) := by
  have hfirst : ∀ (d : Doc) (r x : Nat),
      (find d [r] "a").head? = some x → rowHref d r = attr d [x] "href" := by
    intro d r x hx
    unfold rowHref
    cases hf : find d [r] "a" with
    | nil => rw [hf] at hx; simp at hx
    | cons y ys =>
      rw [hf] at hx
      simp only [List.head?_cons, Option.some.injEq] at hx
      subst hx
      rfl
  rw [script_array]
  have hsk := skeleton_for_of engine ids { doc := doc, trace := [] }
  refine ⟨?_, fun i => attr_congr hsk [i] "href", ?_, ?_, ?_, ?_, ?_⟩
  · have := congrArg List.length hsk
    simpa [skeleton] using this
  · intro i e he
    obtain ⟨n, _, _, hd⟩ := for_of_grown engine ids { doc := doc, trace := [] } i
    simp only [he, Option.map_some'] at hd
    cases hr : rowHref doc i with
    | none =>
      rw [hr, iterate_boundIf_none] at hd
      exact ⟨e, hd, rfl, rfl, rfl, List.prefix_refl _⟩
    | some h =>
      rw [hr, iterate_boundIf_count] at hd
      exact ⟨_, hd, rfl, rfl, rfl, List.prefix_append _ _⟩
  · intro i e he hno
    obtain ⟨n, _, htag, hd⟩ := for_of_grown engine ids { doc := doc, trace := [] } i
    simp only [he, Option.map_some'] at hd
    rw [hd]
    rcases hno with hno | hno
    · cases n with
      | zero => rfl
      | succ n => exact absurd (tag_of_tagOf he (htag (Nat.succ_pos n))) hno
    · rw [rowHref_none_of hno, iterate_boundIf_none]
  · intro table_id trace table i a e h hres hrow he ha hh
    rw [make_table_rows_clickable_getElem?]
    simp only [he, Option.map_some']
    rw [binding_of_mem hres hrow, hfirst doc i a ha, hh]
    rfl
  · intro table_id trace i hno
    rw [make_table_rows_clickable_getElem?]
    simp only [binding_none_of_not_scanned hno]
    cases doc[i]? <;> rfl
  · intro htok i a e h he ha hh
    rw [(for_of_token engine ids htok { doc := doc, trace := [] }).2.2 i]
    simp only [he, Option.map_some']
    have hb : ∀ id ∈ ids, binding engine doc id i
        = if (fun id => decide (i ∈ find doc (getElementById doc id).toList "tr")) id = true
          then some h else none := by
      intro id hid
      rw [binding_token engine doc id i (htok id hid), hfirst doc i a ha, hh]
      simp only [decide_eq_true_eq]
    have hfold : ∀ (l : List String) (x : Element), (∀ id ∈ l, id ∈ ids) →
        l.foldl (fun e id => boundIf (binding engine doc id i) e) x
          = l.foldl (fun e id => boundIf
              (if (fun id => decide (i ∈ find doc (getElementById doc id).toList "tr")) id = true
                then some h else none) e) x := by
      intro l
      induction l with
      | nil => intro x _; rfl
      | cons y ys ihy =>
        intro x hys
        rw [List.foldl_cons, List.foldl_cons, hb y (hys y (List.mem_cons_self _ _))]
        exact ihy _ (fun z hz => hys z (List.mem_cons_of_mem _ hz))
    rw [hfold ids e (fun _ hx => hx), foldl_boundIf_count, iterate_boundIf_count]

/-- Witness for C5: one call on the `orders` document gives row A one handler; the
pass over `["outer", "inner"]` gives the row of `inner`, which both tables hold,
two handlers, and leaves the anchor as it was. -/
theorem pass_only_adds_handlers_and_cursor_witness :
    (make_table_rows_clickable noEngine { doc := ordersDoc, trace := [] } "orders").page.doc[1]?
      = some { depth := 1, tag := "tr", attrs := [], style := [("cursor", "pointer")],
               clicks := [Handler.mk "/orders/1"] } ∧
    (script (.parsed (.value (.array ["outer", "inner"]))) (.loaded noEngine)
      nestedDoc).page.doc[4]?
      = some { depth := 4, tag := "tr", attrs := [], style := [("cursor", "pointer")],
               clicks := [Handler.mk "/i", Handler.mk "/i"] } ∧
    (script (.parsed (.value (.array ["outer", "inner"]))) (.loaded noEngine)
      nestedDoc).page.doc[6]? = some (el 6 "a" [("href", "/i")]) ∧
    (script (.parsed (.value (.array ["outer", "inner"]))) (.loaded noEngine)
      nestedDoc).page.doc
      = [ el 0 "table" [("id", "outer")],
          { depth := 1, tag := "tr", attrs := [], style := [("cursor", "pointer")],
            clicks := [Handler.mk "/i"] },
          el 2 "td" [],
          el 3 "table" [("id", "inner")],
          { depth := 4, tag := "tr", attrs := [], style := [("cursor", "pointer")],
            clicks := [Handler.mk "/i", Handler.mk "/i"] },
          el 5 "td" [],
          el 6 "a" [("href", "/i")] ] :=
  ⟨((pass_only_adds_handlers_and_cursor noEngine [] ordersDoc).2.2.2.2.1 "orders" [] [0] 1 3
      (el 1 "tr" []) "/orders/1" (by rfl) (by decide) (by decide) (by decide)
      (by decide)).trans (by decide),
    ((pass_only_adds_handlers_and_cursor noEngine ["outer", "inner"] nestedDoc).2.2.2.2.2.2
      (by decide) 4 6 (el 4 "tr" []) "/i" (by decide) (by decide) (by decide)).trans (by decide),
    (pass_only_adds_handlers_and_cursor noEngine ["outer", "inner"] nestedDoc).2.2.2.1 6
      (el 6 "a" [("href", "/i")]) (by decide) (Or.inl (by decide)),
    by decide⟩

/-! ## Identifiers without a container -/

theorem roundEvents_missing (engine : Engine) (doc : Doc) (id : String)
    (htok : isIdToken id = true) (hno : getElementById doc id = none) :
    roundEvents engine doc id
      = [Event.log ("Searching for table: " ++ id), Event.call id,
         Event.log ("make_table_rows_clickable: Could not find table: " ++ id)] := by
  unfold roundEvents callEvents
  rw [jQuery_token engine doc id htok, hno]
  rfl

theorem binding_missing (engine : Engine) (doc : Doc) (id : String) (i : Nat)
    (htok : isIdToken id = true) (hno : getElementById doc id = none) :
    binding engine doc id i = none := by
  unfold binding
  rw [jQuery_token engine doc id htok, hno]
  simp [find_nil]

/-- C6, as stated, fails: the document has no element `orders`, and the pass over
`["orders"]` writes two console lines, the search line of the loop and the
line of `make_table_rows_clickable`, not one. -/
theorem missing_container_logs_two_lines :
    getElementById smallDoc "orders" = none ∧
    consoleOf (script (.parsed (.value (.array ["orders"]))) (.loaded noEngine) smallDoc).page.trace
      = ["Searching for table: orders",
         "make_table_rows_clickable: Could not find table: orders"] ∧
    (consoleOf (script (.parsed (.value (.array ["orders"]))) (.loaded noEngine)
      smallDoc).page.trace).length ≠ 1 := by
  decide

/-- C6, amended: when no identifier of the list (identifiers that jQuery looks up
by id) names an element of the document, the pass raises nothing, leaves the
document as it was and, for each identifier in turn, writes the search line,
calls `make_table_rows_clickable` and writes one not-found line: two console
lines for each occurrence of an identifier, so two lines for the list `[x]`,
and no mutation. -/
theorem missing_containers_log_search_and_not_found (engine : Engine) (doc : Doc)
    (ids : List String)
    (hmiss : ∀ id ∈ ids, isIdToken id = true ∧ getElementById doc id = none) :
    script (.parsed (.value (.array ids))) (.loaded engine) doc
      = { page :=
            { doc := doc,
              trace := ids.flatMap (fun id =>
                [Event.log ("Searching for table: " ++ id), Event.call id,
                 Event.log ("make_table_rows_clickable: Could not find table: " ++ id)]) },
          thrown := none } ∧
    consoleOf (script (.parsed (.value (.array ids))) (.loaded engine) doc).page.trace
      = ids.flatMap (fun id =>
          ["Searching for table: " ++ id,
           "make_table_rows_clickable: Could not find table: " ++ id]) ∧
    (consoleOf (script (.parsed (.value (.array ids))) (.loaded engine) doc).page.trace).length
      = 2 * ids.length ∧
    mutationsOf (script (.parsed (.value (.array ids))) (.loaded engine) doc).page.trace = [] := by
  have htok : ∀ id ∈ ids, isIdToken id = true := fun id hid => (hmiss id hid).1
  obtain ⟨hthrown, htrace, hdoc⟩ := for_of_token engine ids htok { doc := doc, trace := [] }
  have hround : ∀ id ∈ ids, roundEvents engine doc id
      = [Event.log ("Searching for table: " ++ id), Event.call id,
         Event.log ("make_table_rows_clickable: Could not find table: " ++ id)] :=
    fun id hid => roundEvents_missing engine doc id (hmiss id hid).1 (hmiss id hid).2
  have hd : (for_of engine { doc := doc, trace := [] } ids).page.doc = doc := by
    apply List.ext_getElem?
    intro i
    rw [hdoc i]
    show Option.map _ doc[i]? = doc[i]?
    cases doc[i]? with
    | none => rfl
    | some e =>
      simp only [Option.map_some']
      rw [foldl_boundIf_none ids (fun id => binding engine doc id i)
        (fun id hid => binding_missing engine doc id i (hmiss id hid).1 (hmiss id hid).2)]
  have ht : (for_of engine { doc := doc, trace := [] } ids).page.trace
      = ids.flatMap (fun id =>
          [Event.log ("Searching for table: " ++ id), Event.call id,
           Event.log ("make_table_rows_clickable: Could not find table: " ++ id)]) := by
    rw [htrace, List.nil_append]
    exact List.flatMap_congr hround
  have hout : script (.parsed (.value (.array ids))) (.loaded engine) doc
      = { page :=
            { doc := doc,
              trace := ids.flatMap (fun id =>
                [Event.log ("Searching for table: " ++ id), Event.call id,
                 Event.log ("make_table_rows_clickable: Could not find table: " ++ id)]) },
          thrown := none } := by
    rw [script_array]
    cases hf : for_of engine { doc := doc, trace := [] } ids with
    | mk page thrown =>
      cases page with
      | mk d t =>
        rw [hf] at hthrown hd ht
        simp only at hthrown hd ht
        rw [hthrown, hd, ht]
  refine ⟨hout, ?_, ?_, ?_⟩
  · rw [hout]
    clear hout hd ht hdoc htrace hthrown hround htok hmiss
    induction ids with
    | nil => rfl
    | cons x xs ih =>
      simp only [List.flatMap_cons, consoleOf, List.filterMap_append] at ih ⊢
      rw [ih]
      rfl
  · rw [hout]
    clear hout hd ht hdoc htrace hthrown hround htok hmiss
    induction ids with
    | nil => rfl
    | cons x xs ih =>
      simp only [List.flatMap_cons, consoleOf, List.filterMap_append, List.length_append,
        List.length_cons] at ih ⊢
      rw [ih]
      simp only [List.filterMap_cons, List.filterMap_nil, List.length_cons, List.length_nil]
      omega
  · rw [hout]
    clear hout hd ht hdoc htrace hthrown hround htok hmiss
    induction ids with
    | nil => rfl
    | cons x xs ih =>
      simp only [List.flatMap_cons, mutationsOf, List.filter_append] at ih ⊢
      rw [ih]
      rfl

/-- Witness for C6: the list `["orders"]` on a document without such an element. -/
theorem missing_containers_log_search_and_not_found_witness :
    (∀ id ∈ ["orders"], isIdToken id = true ∧ getElementById smallDoc id = none) ∧
    (consoleOf (script (.parsed (.value (.array ["orders"]))) (.loaded noEngine)
      smallDoc).page.trace).length = 2 * ["orders"].length :=
  ⟨by decide,
    (missing_containers_log_search_and_not_found noEngine smallDoc ["orders"] (by decide)).2.2.1⟩

/-! ## The guard of lines 46-51 -/

/-- C7: when `CONTEXT` is `null`, or its `target_tables` is `null` or missing, the
script writes the one line `No context found.` and does nothing else, whatever
`$` is (so also when `$` is null: the payload test comes first); when the
payload passes and `$` is null, it writes the one line `jQuery not found.` and
does nothing else.  In each case `make_table_rows_clickable` is not called, the
document is as it was and nothing is raised. -/
theorem guard_logs_once_and_does_nothing (dollar : Dollar) (target_tables : TargetTables)
    (doc : Doc) :
    script (.parsed .null) dollar doc
      = { page := { doc := doc,
                    trace := [Event.log "make_table_rows_clickable: No context found."] },
          thrown := none } ∧
    script (.parsed (.value .nullish)) dollar doc
      = { page := { doc := doc,
                    trace := [Event.log "make_table_rows_clickable: No context found."] },
          thrown := none } ∧
    (target_tables ≠ .nullish →
      script (.parsed (.value target_tables)) .null doc
        = { page := { doc := doc,
                      trace := [Event.log "make_table_rows_clickable: jQuery not found."] },
            thrown := none }) ∧
    (∀ out : Outcome,
      (out = script (.parsed .null) dollar doc ∨
       out = script (.parsed (.value .nullish)) dollar doc ∨
       (target_tables ≠ .nullish ∧ out = script (.parsed (.value target_tables)) .null doc)) →
      (consoleOf out.page.trace).length = 1 ∧ callsOf out.page.trace = [] ∧
        mutationsOf out.page.trace = [] ∧ out.page.doc = doc ∧ out.thrown = none) := by
  have h3 : target_tables ≠ .nullish →
      script (.parsed (.value target_tables)) .null doc
        = { page := { doc := doc,
                      trace := [Event.log "make_table_rows_clickable: jQuery not found."] },
            thrown := none } := by
    intro hne
    cases target_tables with
    | nullish => exact absurd rfl hne
    | array ids => rfl
    | string s => rfl
    | notIterable => rfl
  refine ⟨rfl, rfl, h3, ?_⟩
  rintro out (h | h | ⟨hne, h⟩)
  · subst h
    exact ⟨rfl, rfl, rfl, rfl, rfl⟩
  · subst h
    exact ⟨rfl, rfl, rfl, rfl, rfl⟩
  · rw [h, h3 hne]
    exact ⟨rfl, rfl, rfl, rfl, rfl⟩

/-- Witness for C7: a list of identifiers with `$` null. -/
theorem guard_logs_once_and_does_nothing_witness :
    TargetTables.array ["orders"] ≠ .nullish ∧
    script (.parsed (.value (.array ["orders"]))) .null ordersDoc
      = { page := { doc := ordersDoc,
                    trace := [Event.log "make_table_rows_clickable: jQuery not found."] },
          thrown := none } :=
  ⟨by decide,
    (guard_logs_once_and_does_nothing .null (.array ["orders"]) ordersDoc).2.2.1 (by decide)⟩

/-- C8, as stated, fails: without an element `js-context`, or with text that is not
JSON, line 1 raises and no line is written; a `target_tables` that cannot be
iterated raises at the loop; and a `target_tables` that is the string `t` is
run through like a list and the row of the table `t` gets bound. -/
theorem payload_faults_are_not_all_silent :
    (script .absent (.loaded noEngine) smallDoc).thrown ≠ none ∧
    consoleOf (script .absent (.loaded noEngine) smallDoc).page.trace = [] ∧
    (script .malformed (.loaded noEngine) smallDoc).thrown ≠ none ∧
    consoleOf (script .malformed (.loaded noEngine) smallDoc).page.trace = [] ∧
    (script (.parsed (.value .notIterable)) (.loaded noEngine) smallDoc).thrown ≠ none ∧
    (script (.parsed (.value (.string "t"))) (.loaded noEngine) smallDoc).page.doc ≠ smallDoc ∧
    mutationsOf (script (.parsed (.value (.string "t"))) (.loaded noEngine) smallDoc).page.trace
      = [Event.click 1 "/x", Event.css 1 "cursor" "pointer"] := by
  decide

/-- C8, amended: a payload that parses to `null`, or to a value whose
`target_tables` is `null` or missing, makes the script write one line and do
nothing else, without raising; these are the only parsed payloads the guard
stops.  A `target_tables` that is a string is run through character by
character like a list of one-character identifiers, and one that cannot be
iterated raises at the loop before any line or mutation. -/
theorem guard_stops_only_null_payloads (dollar : Dollar) (engine : Engine) (CONTEXT : Context)
    (s : String) (doc : Doc) :
    (noContext CONTEXT = true →
      script (.parsed CONTEXT) dollar doc
        = { page := { doc := doc,
                      trace := [Event.log "make_table_rows_clickable: No context found."] },
            thrown := none }) ∧
    (noContext CONTEXT = true ↔ (CONTEXT = .null ∨ CONTEXT = .value .nullish)) ∧
    script (.parsed (.value (.string s))) (.loaded engine) doc
      = script (.parsed (.value (.array (s.data.map (fun c => String.mk [c])))))
          (.loaded engine) doc ∧
    script (.parsed (.value .notIterable)) (.loaded engine) doc
      = { page := { doc := doc, trace := [] },
          thrown := some (.typeError "CONTEXT.target_tables is not iterable") } := by
  refine ⟨?_, ?_, rfl, rfl⟩
  · intro h
    unfold script
    simp only [h, ↓reduceIte]
    rfl
  · cases CONTEXT with
    | null => simp [noContext]
    | value tt => cases tt <;> simp [noContext]

/-- Witness for C8: the payload `null`. -/
theorem guard_stops_only_null_payloads_witness :
    noContext .null = true ∧
    script (.parsed .null) (.loaded noEngine) smallDoc
      = { page := { doc := smallDoc,
                    trace := [Event.log "make_table_rows_clickable: No context found."] },
          thrown := none } :=
  ⟨by decide,
    (guard_stops_only_null_payloads (.loaded noEngine) noEngine .null "" smallDoc).1 (by decide)⟩

/-! ## The loop, one identifier after the other -/

theorem callsOf_rowEvents (doc : Doc) (rows : List Nat) :
    callsOf (rows.flatMap (rowEvents doc)) = [] := by
  induction rows with
  | nil => rfl
  | cons r rs ih =>
    simp only [List.flatMap_cons, callsOf, List.filterMap_append] at ih ⊢
    rw [ih, List.append_nil]
    unfold rowEvents
    cases rowHref doc r <;> rfl

theorem callsOf_roundEvents (engine : Engine) (doc : Doc) (id : String) :
    callsOf (roundEvents engine doc id) = [id] := by
  unfold roundEvents callEvents
  cases jQuery engine doc ("#" ++ id) with
  | error _ => rfl
  | ok table =>
    by_cases h : (table.length == 0) = true
    · simp only [h, ↓reduceIte]
      rfl
    · simp only [h, Bool.false_eq_true, ↓reduceIte]
      have := callsOf_rowEvents doc (find doc table "tr")
      simp only [callsOf] at this ⊢
      simp only [List.filterMap_cons, Event.callee, this]

theorem callsOf_flatMap_roundEvents (engine : Engine) (doc : Doc) (ids : List String) :
    callsOf (ids.flatMap (roundEvents engine doc)) = ids := by
  induction ids with
  | nil => rfl
  | cons x xs ih =>
    have hx := callsOf_roundEvents engine doc x
    simp only [List.flatMap_cons, callsOf, List.filterMap_append] at ih hx ⊢
    rw [ih, hx]
    rfl

theorem for_of_doc_of_token (engine : Engine) (ids : List String)
    (htok : ∀ id ∈ ids, isIdToken id = true) (p : Page) :
    (for_of engine p ids).page.doc = (for_of engine { doc := p.doc, trace := [] } ids).page.doc := by
  apply List.ext_getElem?
  intro i
  rw [(for_of_token engine ids htok p).2.2 i,
    (for_of_token engine ids htok { doc := p.doc, trace := [] }).2.2 i]

theorem for_of_doc_foldl (engine : Engine) (ids : List String)
    (htok : ∀ id ∈ ids, isIdToken id = true) (doc : Doc) :
    (for_of engine { doc := doc, trace := [] } ids).page.doc
      = ids.foldl (fun d id => (for_of engine { doc := d, trace := [] } [id]).page.doc) doc := by
  induction ids generalizing doc with
  | nil => rfl
  | cons x xs ih =>
    have hx : isIdToken x = true := htok x (List.mem_cons_self _ _)
    have hxs : ∀ y ∈ xs, isIdToken y = true := fun y hy => htok y (List.mem_cons_of_mem _ hy)
    have hok := make_table_rows_clickable_thrown_token engine
      (Page.log { doc := doc, trace := [] } ("Searching for table: " ++ x)) x hx
    rw [List.foldl_cons, for_of_cons_ok engine _ x xs hok, for_of_doc_of_token engine xs hxs,
      ih hxs, for_of_cons_ok engine _ x [] hok]
    rfl

/-- C9, as stated, fails: in the list `["orders", "", "orders"]` the second entry
makes the selector `#`, which jQuery rejects by raising; nothing catches it, so
the loop stops there, `make_table_rows_clickable` is never called for the third
entry, and row A has the one handler of the first round only. -/
theorem rejected_selector_stops_the_loop :
    (script (.parsed (.value (.array ["orders", "", "orders"]))) (.loaded noEngine)
      ordersDoc).thrown = some (.selectorError "#") ∧
    callsOf (script (.parsed (.value (.array ["orders", "", "orders"]))) (.loaded noEngine)
      ordersDoc).page.trace = ["orders", ""] ∧
    (script (.parsed (.value (.array ["orders", "", "orders"]))) (.loaded noEngine)
      ordersDoc).page.doc[1]?
      = some { depth := 1, tag := "tr", attrs := [], style := [("cursor", "pointer")],
               clicks := [Handler.mk "/orders/1"] } := by
  decide

/-- C9, amended: for a list of identifiers that jQuery looks up by id (non-empty,
word characters and hyphens), the script raises nothing, calls
`make_table_rows_clickable` once for each element of the list, in list order,
duplicates included; its events are those of the passes over the one-element
lists, one after the other in list order, and the document it leaves is the
one those passes leave when run in turn; an identifier without a container
adds no mutation; for the empty list there is no event at all. -/
theorem pass_runs_each_identifier_in_order (engine : Engine) (ids : List String) (doc : Doc)
    (htok : ∀ id ∈ ids, isIdToken id = true) :
    (script (.parsed (.value (.array ids))) (.loaded engine) doc).thrown = none ∧
    callsOf (script (.parsed (.value (.array ids))) (.loaded engine) doc).page.trace = ids ∧
    (script (.parsed (.value (.array ids))) (.loaded engine) doc).page.trace
      = ids.flatMap (fun id =>
          (script (.parsed (.value (.array [id]))) (.loaded engine) doc).page.trace) ∧
    (script (.parsed (.value (.array ids))) (.loaded engine) doc).page.doc
      = ids.foldl (fun d id =>
          (script (.parsed (.value (.array [id]))) (.loaded engine) d).page.doc) doc ∧
    (∀ id ∈ ids, getElementById doc id = none →
      mutationsOf (script (.parsed (.value (.array [id]))) (.loaded engine) doc).page.trace = []) ∧
    script (.parsed (.value (.array []))) (.loaded engine) doc
      = { page := { doc := doc, trace := [] }, thrown := none } := by
  obtain ⟨hthrown, htrace, _⟩ := for_of_token engine ids htok { doc := doc, trace := [] }
  have hone : ∀ id ∈ ids,
      (script (.parsed (.value (.array [id]))) (.loaded engine) doc).page.trace
        = roundEvents engine doc id := by
    intro id hid
    have h1 : ∀ x ∈ [id], isIdToken x = true := by
      intro x hx
      rw [List.mem_singleton] at hx
      rw [hx]
      exact htok id hid
    rw [script_array, (for_of_token engine [id] h1 { doc := doc, trace := [] }).2.1]
    simp
  refine ⟨hthrown, ?_, ?_, ?_, ?_, rfl⟩
  · rw [script_array, htrace, List.nil_append]
    exact callsOf_flatMap_roundEvents engine doc ids
  · rw [script_array, htrace, List.nil_append]
    exact (List.flatMap_congr hone).symm
  · exact for_of_doc_foldl engine ids htok doc
  · intro id hid hno
    rw [hone id hid, roundEvents_missing engine doc id (htok id hid) hno]
    rfl

/-- Witness for C9: the list `["orders", "nowhere", "orders"]` on the `orders`
document: three calls in order, nothing raised, the events of the three rounds
one after the other, and two handlers on row A. -/
theorem pass_runs_each_identifier_in_order_witness :
    (∀ id ∈ ["orders", "nowhere", "orders"], isIdToken id = true) ∧
    (script (.parsed (.value (.array ["orders", "nowhere", "orders"])))
      (.loaded noEngine) ordersDoc).thrown = none ∧
    callsOf (script (.parsed (.value (.array ["orders", "nowhere", "orders"])))
      (.loaded noEngine) ordersDoc).page.trace = ["orders", "nowhere", "orders"] ∧
    (script (.parsed (.value (.array ["orders", "nowhere", "orders"])))
      (.loaded noEngine) ordersDoc).page.trace
      = [Event.log "Searching for table: orders", Event.call "orders",
         Event.click 1 "/orders/1", Event.css 1 "cursor" "pointer",
         Event.log "Searching for table: nowhere", Event.call "nowhere",
         Event.log "make_table_rows_clickable: Could not find table: nowhere",
         Event.log "Searching for table: orders", Event.call "orders",
         Event.click 1 "/orders/1", Event.css 1 "cursor" "pointer"] ∧
    (script (.parsed (.value (.array ["orders", "nowhere", "orders"])))
      (.loaded noEngine) ordersDoc).page.doc
      = [ el 0 "table" [("id", "orders")],
          { depth := 1, tag := "tr", attrs := [], style := [("cursor", "pointer")],
            clicks := [Handler.mk "/orders/1", Handler.mk "/orders/1"] },
          el 2 "td" [],
          el 3 "a" [("href", "/orders/1")],
          el 1 "tr" [],
          el 2 "td" [] ] ∧
    mutationsOf (script (.parsed (.value (.array ["nowhere"]))) (.loaded noEngine)
      ordersDoc).page.trace = [] :=
  match pass_runs_each_identifier_in_order noEngine ["orders", "nowhere", "orders"] ordersDoc
      (by decide) with
  | ⟨h1, h2, h3, h4, h5, _⟩ =>
    ⟨by decide, h1, h2, h3.trans (by decide), h4.trans (by decide),
      h5 "nowhere" (by decide) (by decide)⟩

/-! ## Calling twice -/

theorem doc_once (engine : Engine) (doc : Doc) (trace : List Event) (id : String) (i : Nat) :
    (once engine doc trace id).doc[i]? = (doc[i]?).map (boundIf (binding engine doc id i)) :=
  make_table_rows_clickable_getElem? engine { doc := doc, trace := trace } id i

theorem doc_twice (engine : Engine) (doc : Doc) (trace : List Event) (id : String) (i : Nat) :
    (twice engine doc trace id).doc[i]?
      = ((once engine doc trace id).doc[i]?).map
          (boundIf (binding engine (once engine doc trace id).doc id i)) :=
  make_table_rows_clickable_getElem? engine (once engine doc trace id) id i

theorem skeleton_once (engine : Engine) (doc : Doc) (trace : List Event) (id : String) :
    skeleton (once engine doc trace id).doc = skeleton doc :=
  skeleton_make_table_rows_clickable engine { doc := doc, trace := trace } id

/-- C10: a second call of `make_table_rows_clickable`, run on the document the first
call left, keeps the handlers that are there, in place, and adds at most one
to each element: exactly one, for the `href` `h` of its first anchor, with the
`pointer` cursor, to each row inside what the identifier resolves to whose
first anchor has an `href`, and nothing to any other element, which it leaves
as it is.  A row the first call
bound to `h` keeps the style the first call gave it, and a handler the second
call adds to it is again one for `h`.  For an identifier that jQuery looks up
by id the second call finds the rows the first call found, so each row bound
by the first call ends with exactly two added handlers, both for `h`. -/
theorem second_call_adds_one_handler_per_bound_row (engine : Engine) (doc : Doc)
    (trace : List Event) (id : String) (i : Nat) (e : Element) (he : doc[i]? = some e) :
    ∃ e1 e2 : Element,
      (once engine doc trace id).doc[i]? = some e1 ∧
      (twice engine doc trace id).doc[i]? = some e2 ∧
      e1.clicks <+: e2.clicks ∧
      e2.clicks.length ≤ e1.clicks.length + 1 ∧
      (∀ (table : List Nat) (a : Nat) (h : String),
        jQuery engine (once engine doc trace id).doc ("#" ++ id) = .ok table →
        i ∈ find doc table "tr" →
        (find doc [i] "a").head? = some a → attr doc [a] "href" = some h →
        e2.clicks = e1.clicks ++ [Handler.mk h] ∧ getStyle e2.style "cursor" = some "pointer") ∧
      (((∀ table, jQuery engine (once engine doc trace id).doc ("#" ++ id) = .ok table →
            i ∉ find doc table "tr") ∨
          find doc [i] "a" = [] ∨
          ∃ a, (find doc [i] "a").head? = some a ∧ attr doc [a] "href" = none) →
        e2 = e1) ∧
      (∀ (table : List Nat) (a : Nat) (h : String),
        jQuery engine doc ("#" ++ id) = .ok table → i ∈ find doc table "tr" →
        (find doc [i] "a").head? = some a → attr doc [a] "href" = some h →
        e1.clicks = e.clicks ++ [Handler.mk h] ∧
        getStyle e1.style "cursor" = some "pointer" ∧
        e2.style = e1.style ∧
        (e2.clicks = e1.clicks ∨ e2.clicks = e.clicks ++ [Handler.mk h, Handler.mk h])) ∧
      (isIdToken id = true →
        ∀ (a : Nat) (h : String),
        i ∈ find doc (getElementById doc id).toList "tr" →
        (find doc [i] "a").head? = some a → attr doc [a] "href" = some h →
        e1.clicks = e.clicks ++ [Handler.mk h] ∧
        e2.clicks = e.clicks ++ [Handler.mk h, Handler.mk h] ∧
        e2.style = e1.style ∧
        getStyle e2.style "cursor" = some "pointer") := by
  have hfirst : ∀ (d : Doc) (r x : Nat),
      (find d [r] "a").head? = some x → rowHref d r = attr d [x] "href" := by
    intro d r x hx
    unfold rowHref
    cases hf : find d [r] "a" with
    | nil => rw [hf] at hx; simp at hx
    | cons y ys =>
      rw [hf] at hx
      simp only [List.head?_cons, Option.some.injEq] at hx
      subst hx
      rfl
  have hsk := skeleton_once engine doc trace id
  have h1 := doc_once engine doc trace id i
  have h2 := doc_twice engine doc trace id i
  rw [h1] at h2
  simp only [he, Option.map_some'] at h1 h2
  have hr1 : rowHref (once engine doc trace id).doc i = rowHref doc i := rowHref_congr hsk i
  -- what each call binds to the element: nothing, or the `href` line 30 reads
  have hb1 := binding_cases engine doc id i
  have hb2 := binding_cases engine (once engine doc trace id).doc id i
  rw [hr1] at hb2
  refine ⟨_, _, h1, h2, ?_, ?_, ?_, ?_, ?_, ?_⟩
  · cases binding engine (once engine doc trace id).doc id i with
    | none => exact List.prefix_refl _
    | some h => exact List.prefix_append _ _
  · cases binding engine (once engine doc trace id).doc id i with
    | none => exact Nat.le_succ _
    | some h => simp [boundIf, bound]
  · intro table a h hres hrow ha hh
    rw [← find_congr hsk table "tr"] at hrow
    rw [binding_of_mem hres hrow, hr1, hfirst doc i a ha, hh]
    exact ⟨rfl, getStyle_setStyle _ _ _⟩
  · rintro (hno | hno)
    · have hno1 : ∀ table,
          jQuery engine (once engine doc trace id).doc ("#" ++ id) = .ok table →
          i ∉ find (once engine doc trace id).doc table "tr" := by
        intro table hres
        rw [find_congr hsk table "tr"]
        exact hno table hres
      rw [binding_none_of_not_scanned hno1]
      rfl
    · rcases hb2 with hb | ⟨hb, _⟩
      · rw [hb]
        rfl
      · rw [hb, rowHref_none_of hno]
        rfl
  · intro table a h hres hrow ha hh
    have hb : binding engine doc id i = some h := by
      rw [binding_of_mem hres hrow, hfirst doc i a ha, hh]
    have hr : rowHref doc i = some h := by rw [hfirst doc i a ha, hh]
    rw [hb]
    rcases hb2 with hb' | ⟨hb', _⟩
    · rw [hb']
      exact ⟨rfl, getStyle_setStyle _ _ _, rfl, Or.inl rfl⟩
    · rw [hb', hr]
      refine ⟨rfl, getStyle_setStyle _ _ _, setStyle_setStyle _ _ _, Or.inr ?_⟩
      simp [boundIf, bound]
  · intro htok a h hrow ha hh
    have hb : binding engine doc id i = some h := by
      rw [binding_token engine doc id i htok, hfirst doc i a ha, hh]
      simp [hrow]
    rw [binding_congr_token engine hsk id htok i, hb]
    refine ⟨rfl, ?_, setStyle_setStyle _ _ _, getStyle_setStyle _ _ _⟩
    simp [boundIf, bound]

/-- Witness for C10: row A of the table `orders` has one handler after the first
call and two after the second, both for `/orders/1`, with the same style; row B
is as it was after both. -/
theorem second_call_adds_one_handler_per_bound_row_witness :
    (ordersDoc[1]? = some (el 1 "tr" []) ∧ isIdToken "orders" = true ∧
      1 ∈ find ordersDoc (getElementById ordersDoc "orders").toList "tr" ∧
      (find ordersDoc [1] "a").head? = some 3 ∧ attr ordersDoc [3] "href" = some "/orders/1") ∧
    (∃ e1 e2 : Element,
      (once noEngine ordersDoc [] "orders").doc[1]? = some e1 ∧
      (twice noEngine ordersDoc [] "orders").doc[1]? = some e2 ∧
      e1.clicks = [Handler.mk "/orders/1"] ∧
      e2.clicks = [Handler.mk "/orders/1", Handler.mk "/orders/1"] ∧
      e2.style = e1.style ∧
      getStyle e2.style "cursor" = some "pointer") ∧
    (∃ e1 e2 : Element,
      (once noEngine ordersDoc [] "orders").doc[4]? = some e1 ∧
      (twice noEngine ordersDoc [] "orders").doc[4]? = some e2 ∧
      e2 = e1) ∧
    (twice noEngine ordersDoc [] "orders").doc
      = [ el 0 "table" [("id", "orders")],
          { depth := 1, tag := "tr", attrs := [], style := [("cursor", "pointer")],
            clicks := [Handler.mk "/orders/1", Handler.mk "/orders/1"] },
          el 2 "td" [],
          el 3 "a" [("href", "/orders/1")],
          el 1 "tr" [],
          el 2 "td" [] ] :=
  ⟨⟨by decide, by decide, by decide, by decide, by decide⟩,
    match second_call_adds_one_handler_per_bound_row noEngine ordersDoc [] "orders" 1
      (el 1 "tr" []) (by decide) with
    | ⟨e1, e2, h1, h2, _, _, _, _, _, htok⟩ =>
      ⟨e1, e2, h1, h2,
        (htok (by decide) 3 "/orders/1" (by decide) (by decide) (by decide)).1,
        (htok (by decide) 3 "/orders/1" (by decide) (by decide) (by decide)).2.1,
        (htok (by decide) 3 "/orders/1" (by decide) (by decide) (by decide)).2.2.1,
        (htok (by decide) 3 "/orders/1" (by decide) (by decide) (by decide)).2.2.2⟩,
    match second_call_adds_one_handler_per_bound_row noEngine ordersDoc [] "orders" 4
      (el 1 "tr" []) (by decide) with
    | ⟨e1, e2, h1, h2, _, _, _, hno, _, _⟩ =>
      ⟨e1, e2, h1, h2, hno (Or.inr (Or.inl (by decide)))⟩,
    by decide⟩

end SASP
